import Mathlib

/-!
Verification of the entity-resolution and batched-submission layer of the
DFP line-item generator.

The development shallowly embeds the relevant JavaScript source
(`src/scripts/create-line-items-custom.js`, the `Dfp` wrapper it contains,
and the `splitBatches` helpers of the association scripts) into Lean.

Modelling conventions:
- Promise chains become explicit state-passing computations
  `CacheSt -> Except String A × CacheSt` (`CacheM`); a rejected promise is
  an `Except.error` carrying the error message.
- The levelup stores are association lists, one per namespace, collected
  in `CacheSt`.  levelup rejects `null`/`undefined` keys, so store keys
  are `Option String` with `none` standing for JS `undefined`; levelup
  stringifies non-string object keys with `String(key)`, which for a
  `node-google-dfp` `Statement` (no custom `toString`) yields the constant
  `"[object Object]"`.
- The remote DFP platform (`dfpUser.executeAPIFunction`) is an oracle
  `Remote` mapping (service, method, query) to a `Response`; each
  invocation bumps the `remoteCalls` counter.
- A failing cache back-fill write (a disk-level event outside the
  program) is fault-injected through the `putFails` flag: when set, every
  `putAsync` rejects, which is how the CacheWriteError scenarios are
  exercised.
- JS object mutation is modelled by a heap of line items (`St.heap`):
  refs are indices, `_.cloneDeep` allocates a fresh copy, and property
  assignments are heap writes at a ref, so aliasing and mutation of the
  caller's object are observable.
-/

/-- A single-quote character, used to build PQL query strings. -/
def sglq : String := String.mk [Char.ofNat 39]

/-- One per-namespace levelup store: an association list from key to
identifier, newest entry first (a `put` prepends). -/
def Store : Type := List (String × String)

instance : DecidableEq Store := by
  unfold Store
  infer_instance

/-- Point lookup in a store (the newest write for a key wins). -/
def Store.find (st : Store) (k : String) : Option String :=
  match st with
  | [] => none
  | (k₀, v₀) :: rest => if k₀ = k then some v₀ else Store.find rest k

/-- One entity in a DFP API response; `id` is `none` when the JS object
has no (or a null) `id` property. -/
structure DfpEntity where
  id : Option String
deriving DecidableEq, Repr

/-- A DFP API response; `results` is `none` when the JS response carries
no `results` property (`extractResults` then throws). -/
structure Response where
  results : Option (List DfpEntity)
deriving DecidableEq, Repr

/-- The remote DFP platform: service name, method name and query string
to response.  The transport layer is an external collaborator; it is
modelled as a total, stable oracle. -/
def Remote : Type := String → String → String → Response

/-- The condition objects passed to `_makeQuery`: field name to value,
where a `none` value models a JS `undefined` property (for example
`{ name: lineItem.orderName }` with `orderName` absent). -/
def Conditions : Type := List (String × Option String)

/-- Reading `conditions[field]`: an absent field and a field holding
`undefined` both yield `none`. -/
def Conditions.get (c : Conditions) (f : String) : Option String :=
  match c with
  | [] => none
  | (f₀, v₀) :: rest => if f₀ = f then v₀ else Conditions.get rest f

/-- JS truthiness of `conditions[field]` for string-valued conditions:
the field must be present and its value non-empty. -/
def Conditions.truthy (c : Conditions) (f : String) : Option String :=
  match c.get f with
  | none => none
  | some v => if v = "" then none else some v

/-- String coercion of `conditions[field]` as JS template/concat does it:
an undefined field prints as "undefined". -/
def Conditions.str (c : Conditions) (f : String) : String :=
  match c.get f with
  | none => "undefined"
  | some v => v

/-- The queryable line-item fields (`LINE_ITEM_FIELDS`). -/
def LINE_ITEM_FIELDS : List String :=
  ["costType", "creationDateTime", "deliveryRateType", "endDateTime",
   "externalId", "id", "isMissingCreatives", "isSetTopBoxEnabled",
   "lastModifiedDateTime", "lineItemType", "name", "orderId",
   "startDateTime", "status", "targeting", "unitsBought"]

/-- The queryable criteria-value fields (`CRITERIA_VALUE_FIELDS`). -/
def CRITERIA_VALUE_FIELDS : List String :=
  ["id", "customTargetingKeyId", "name", "displayName", "matchType"]

/-- The queryable criteria-key fields (`CRITERIA_KEY_FIELDS`). -/
def CRITERIA_KEY_FIELDS : List String :=
  ["id", "name", "displayName", "type"]

/-- The queryable ad-unit fields (`AD_UNIT_FIELDS`). -/
def AD_UNIT_FIELDS : List String :=
  ["adUnitCode", "id", "name", "parentId", "status", "lastModifiedDateTime"]

/-- The queryable order fields (`ORDER_FIELDS`). -/
def ORDER_FIELDS : List String :=
  ["advertiserId", "endDateTime", "id", "name", "salespersonId",
   "startDateTime", "status", "traffickerId", "lastModifiedDateTime"]

/-- The queryable label fields (`LABEL_FIELDS`). -/
def LABEL_FIELDS : List String :=
  ["id", "type", "name", "description", "isActive"]

/-- One PQL clause `field like 'value'`. -/
def likeClause (field v : String) : String :=
  field ++ " like " ++ sglq ++ v ++ sglq

/-- The trailing-`and` strip `query.replace(/ and $/, '')`: when the
string ends in the five characters " and " they are removed, otherwise
the string is unchanged. -/
def replaceTrailingAnd (q : String) : String :=
  if 5 ≤ q.data.length ∧ q.data.drop (q.data.length - 5) = (" and ").data then
    String.mk (q.data.take (q.data.length - 5))
  else q

/-- `_makeQuery(conditions, fields)`: fold over `fields`, appending
`field like 'value' and ` for each truthy condition, starting from
"Where ", then strip the final " and ".  The resulting `Statement` is
identified with its query string. -/
def makeQuery (conditions : Conditions) (fields : List String) : String :=
  replaceTrailingAnd <| fields.foldl
    (fun cond field =>
      match conditions.truthy field with
      | some v => cond ++ (likeClause field v ++ " and ")
      | none => cond)
    "Where "

/-- Error message thrown by `extractResults`. -/
def resultsErrMsg : String := "Expected to find results, but there were none"

/-- Error message thrown by `extractFirstId`. -/
def idErrMsg : String := "expected to find an id, but didnt"

/-- levelup rejection for a `null`/`undefined` key (get or put). -/
def levelKeyErrMsg : String := "key cannot be null or undefined"

/-- Rejection produced by an (injected) failing cache back-fill write. -/
def putErrMsg : String := "WriteError: put failed"

/-- levelup stringification of a `node-google-dfp` `Statement` object
used as a store key (`adUnitStore.getAsync(query)`): the object has no
custom `toString`, so `String(query)` is `"[object Object]"`. -/
def statementLevelKey : String := "[object Object]"

/-- `extractResults`: throws when the response has no `results`
property, otherwise returns it (an empty array is truthy in JS and is
returned as-is). -/
def extractResults (response : Response) : Except String (List DfpEntity) :=
  match response.results with
  | none => .error resultsErrMsg
  | some rs => .ok rs

/-- `extractFirstId`: throws when `results[0]` or `results[0].id` is
falsy (absent first element, absent id, or empty-string id), otherwise
returns `results[0].id`. -/
def extractFirstId (results : List DfpEntity) : Except String String :=
  match results with
  | [] => .error idErrMsg
  | r :: _ =>
    match r.id with
    | none => .error idErrMsg
    | some i => if i = "" then .error idErrMsg else .ok i

deriving instance DecidableEq for Except

/-- The cache-and-counter state threaded through every `Dfp` method:
the five levelup stores, the remote-call counter, and the write-failure
fault-injection flag. -/
structure CacheSt where
  criteriaKeyStore : Store
  criteriaValueStore : Store
  adUnitStore : Store
  orderStore : Store
  labelStore : Store
  remoteCalls : Nat
  putFails : Bool
deriving DecidableEq

/-- A promise-returning computation over the cache state; a rejected
promise is an `Except.error` with the rejection message. -/
def CacheM (α : Type) : Type := CacheSt → Except String α × CacheSt

/-- Promise resolution (`Bluebird.resolve` / a fulfilled `.then`). -/
def pureC {α : Type} (a : α) : CacheM α := fun s => (.ok a, s)

/-- Promise chaining (`.then`): a rejection short-circuits. -/
def bindC {α β : Type} (m : CacheM α) (f : α → CacheM β) : CacheM β :=
  fun s =>
    match m s with
    | (.ok a, s₁) => f a s₁
    | (.error e, s₁) => (.error e, s₁)

/-- Promise `.catch`: a rejection of `m` runs the handler. -/
def catchC {α : Type} (m : CacheM α) (h : String → CacheM α) : CacheM α :=
  fun s =>
    match m s with
    | (.ok a, s₁) => (.ok a, s₁)
    | (.error e, s₁) => h e s₁

/-- Lift a pure `Except` value (a `.then` over an already-settled
value). -/
def liftE {α : Type} (e : Except String α) : CacheM α := fun s => (e, s)

/-- Which of the five levelup stores an operation addresses. -/
inductive StoreName
  | criteriaKey
  | criteriaValue
  | adUnit
  | order
  | label
deriving DecidableEq, Repr

/-- Read a named store out of the state. -/
def CacheSt.store (s : CacheSt) (n : StoreName) : Store :=
  match n with
  | .criteriaKey => s.criteriaKeyStore
  | .criteriaValue => s.criteriaValueStore
  | .adUnit => s.adUnitStore
  | .order => s.orderStore
  | .label => s.labelStore

/-- Replace a named store in the state. -/
def CacheSt.setStore (s : CacheSt) (n : StoreName) (st : Store) : CacheSt :=
  match n with
  | .criteriaKey => { s with criteriaKeyStore := st }
  | .criteriaValue => { s with criteriaValueStore := st }
  | .adUnit => { s with adUnitStore := st }
  | .order => { s with orderStore := st }
  | .label => { s with labelStore := st }

/-- `store.getAsync(key)`: levelup rejects an `undefined` key; a present
key resolves with the stored value; a missing key rejects with a
NotFound error. -/
def getAsync (n : StoreName) (key : Option String) : CacheM String :=
  fun s =>
    match key with
    | none => (.error levelKeyErrMsg, s)
    | some k =>
      match (s.store n).find k with
      | some v => (.ok v, s)
      | none => (.error "NotFoundError: Key not found in database", s)

/-- `store.putAsync(key, value)`: levelup rejects an `undefined` key;
otherwise the write succeeds unless the injected write fault is armed. -/
def putAsync (n : StoreName) (key : Option String) (v : String) : CacheM Unit :=
  fun s =>
    match key with
    | none => (.error levelKeyErrMsg, s)
    | some k =>
      if s.putFails then (.error putErrMsg, s)
      else (.ok (), s.setStore n ((k, v) :: s.store n))

/-- `dfpUser.executeAPIFunction(service, method, query)`: one remote
call, counted, answered by the oracle. -/
def executeAPI (remote : Remote) (service method query : String) : CacheM Response :=
  fun s => (.ok (remote service method query), { s with remoteCalls := s.remoteCalls + 1 })

/-- Sequential `Bluebird.map(f, {concurrency: 1})`: items are processed
in array order, one at a time; input order is preserved in the output. -/
def mapSeqC {α β : Type} (f : α → CacheM β) : List α → CacheM (List β)
  | [] => pureC []
  | a :: rest => bindC (f a) fun b => bindC (mapSeqC f rest) fun bs => pureC (b :: bs)

/-- `Dfp.prototype.getCriteriaKey(conditions)`: query the
CustomTargetingService and take the first id. -/
def getCriteriaKey (remote : Remote) (conditions : Conditions) : CacheM String :=
  bindC (executeAPI remote "CustomTargetingService"
      "getCustomTargetingKeysByStatement" (makeQuery conditions CRITERIA_KEY_FIELDS))
    fun response =>
  bindC (liftE (extractResults response)) fun results =>
  liftE (extractFirstId results)

/-- `Dfp.prototype.lookupCriteriaKey(name)`: try the criteria-key store;
on any rejection fall back to DFP, then back-fill the store under the
plain name.  The back-fill is wrapped in
`.catch(e => { console.log(...); throw e; })`, so a failed write is
logged and rethrown: it propagates out of the `tap`. -/
def lookupCriteriaKey (remote : Remote) (name : String) : CacheM String :=
  catchC (getAsync .criteriaKey (some name)) fun _ =>
    bindC (getCriteriaKey remote [("name", some name)]) fun id =>
    bindC (putAsync .criteriaKey (some name) id) fun _ =>
    pureC id

/-- `Dfp.prototype.getCriteriaValue(conditions)` (the later definition in
the file, which overrides the deprecated alias): builds the query string
by hand with `customTargetingKeyId = '...'` and `name like '...'`, then
takes the first id. -/
def getCriteriaValue (remote : Remote) (conditions : Conditions) : CacheM String :=
  bindC (executeAPI remote "CustomTargetingService"
      "getCustomTargetingValuesByStatement"
      ("Where customTargetingKeyId = " ++ sglq ++ conditions.str "customTargetingKeyId"
        ++ sglq ++ " and name like " ++ sglq ++ conditions.str "name" ++ sglq))
    fun response =>
  bindC (liftE (extractResults response)) fun results =>
  liftE (extractFirstId results)

/-- `Dfp.prototype.lookupCriteriaValues(value, keyId)`: the store key is
the composite `keyId + ':' + value`; on a store miss the DFP lookup and
its back-fill `tap` run under a `.catch` that logs and rethrows, so a
failed write propagates; a successful id is wrapped in a singleton
array. -/
def lookupCriteriaValues (remote : Remote) (value keyId : String) : CacheM (List String) :=
  bindC
    (catchC (getAsync .criteriaValue (some (keyId ++ ":" ++ value))) fun _ =>
      bindC (getCriteriaValue remote
          [("name", some value), ("customTargetingKeyId", some keyId)]) fun valueId =>
      bindC (putAsync .criteriaValue (some (keyId ++ ":" ++ value)) valueId) fun _ =>
      pureC valueId)
    fun id => pureC [id]

/-- `_lookupKeyInPair([key, value])`: resolve the key name, keep the
value name. -/
def lookupKeyInPair (remote : Remote) (pair : String × String) : CacheM (String × String) :=
  bindC (lookupCriteriaKey remote pair.1) fun keyId => pureC (keyId, pair.2)

/-- `_lookupValueInPair([keyId, value])`: keep the key id, resolve the
value name scoped by it. -/
def lookupValueInPair (remote : Remote) (pair : String × String) :
    CacheM (String × List String) :=
  bindC (lookupCriteriaValues remote pair.2 pair.1) fun valueIds => pureC (pair.1, valueIds)

/-- The enriched form of one custom-targeting key/value pair. -/
structure CriteriaEntry where
  keyId : String
  valueIds : List String
deriving DecidableEq, Repr

/-- `_convertPairToObject([keyId, valueIds])`. -/
def convertPairToObject (pair : String × List String) : CriteriaEntry :=
  { keyId := pair.1, valueIds := pair.2 }

/-- `Dfp.prototype.getCriteria(criteria)`: `_.pairs` of the mapping (its
insertion order), then the three serialized map stages. -/
def getCriteria (remote : Remote) (criteria : List (String × String)) :
    CacheM (List CriteriaEntry) :=
  bindC (mapSeqC (lookupKeyInPair remote) criteria) fun keyPairs =>
  bindC (mapSeqC (lookupValueInPair remote) keyPairs) fun valuePairs =>
  pureC (valuePairs.map convertPairToObject)

/-- `Dfp.prototype.getAdUnit(conditions)`: the store read uses the
`Statement` object itself as key (levelup stringifies it to
"[object Object]"), while the back-fill write uses `conditions.name`;
the back-fill `tap` has no catch, so a write rejection propagates. -/
def getAdUnit (remote : Remote) (conditions : Conditions) : CacheM String :=
  catchC (getAsync .adUnit (some statementLevelKey)) fun _ =>
    bindC (executeAPI remote "InventoryService" "getAdUnitsByStatement"
        (makeQuery conditions AD_UNIT_FIELDS)) fun response =>
    bindC (liftE (extractResults response)) fun results =>
    bindC (liftE (extractFirstId results)) fun id =>
    bindC (putAsync .adUnit (conditions.get "name") id) fun _ =>
    pureC id

/-- `Dfp.prototype.getOrder(conditions)`: store read keyed by
`conditions.name`; on a miss the DFP lookup runs, its back-fill `tap`
writes under `conditions.name`, and the trailing catch logs and
rethrows, so a failed write propagates. -/
def getOrder (remote : Remote) (conditions : Conditions) : CacheM String :=
  catchC (getAsync .order (conditions.get "name")) fun _ =>
    bindC (executeAPI remote "OrderService" "getOrdersByStatement"
        (makeQuery conditions ORDER_FIELDS)) fun response =>
    bindC (liftE (extractResults response)) fun results =>
    bindC (liftE (extractFirstId results)) fun id =>
    bindC (putAsync .order (conditions.get "name") id) fun _ =>
    pureC id

/-- `Dfp.prototype.getLabel(conditions)`: LabelService query, first id. -/
def getLabel (remote : Remote) (conditions : Conditions) : CacheM String :=
  bindC (executeAPI remote "LabelService" "getLabelsByStatement"
      (makeQuery conditions LABEL_FIELDS)) fun response =>
  bindC (liftE (extractResults response)) fun results =>
  liftE (extractFirstId results)

/-- `Dfp.prototype.lookupLabel(name)`: same shape as
`lookupCriteriaKey`, against the label store; the back-fill is wrapped
in a log-and-rethrow catch, so a failed write propagates. -/
def lookupLabel (remote : Remote) (name : String) : CacheM String :=
  catchC (getAsync .label (some name)) fun _ =>
    bindC (getLabel remote [("name", some name)]) fun id =>
    bindC (putAsync .label (some name) id) fun _ =>
    pureC id

/-- One `targetedAdUnits` element installed by `replaceAdUnitName`. -/
structure AdUnitTarget where
  adUnitId : String
  includeDescendants : Bool
deriving DecidableEq, Repr

/-- The `inventoryTargeting` sub-object of a line item. -/
structure InventoryTargeting where
  targetedAdUnits : List AdUnitTarget
deriving DecidableEq, Repr

/-- One pushed custom-criteria node: fixed `xsi:type` attribute, the
resolved ids, and the fixed "IS" operator. -/
structure CustomCriteriaNode where
  attrXsiType : String
  keyId : String
  valueIds : List String
  operator : String
deriving DecidableEq, Repr

/-- A `customTargeting.children[i]` group whose `children` array receives
the pushed criteria nodes. -/
structure CustomTargetingGroup where
  children : List CustomCriteriaNode
deriving DecidableEq, Repr

/-- The `customTargeting` sub-object of a line item. -/
structure CustomTargeting where
  children : List CustomTargetingGroup
deriving DecidableEq, Repr

/-- The `targeting` sub-object; either nested object may be absent
(`none` models JS `undefined`, on which a property access throws). -/
structure TargetingObj where
  inventoryTargeting : Option InventoryTargeting
  customTargeting : Option CustomTargeting
deriving DecidableEq, Repr

/-- The structured date written by `replaceStartDate`. -/
structure DateYMD where
  year : String
  month : String
  day : String
deriving DecidableEq, Repr

/-- The `startDateTime` object written by `replaceStartDate`; `hour` and
`minute` are `none` when the moment parse was invalid (NaN). -/
structure StartDateTime where
  date : DateYMD
  hour : Option Nat
  minute : Option Nat
  second : String
  timeZoneID : String
deriving DecidableEq, Repr

/-- A line-item domain object as the pipeline sees it.  `none` fields
model absent JS properties (`delete` sets a field to `none`). -/
structure LineItem where
  orderName : Option String
  orderId : Option String
  adUnitName : Option String
  customCriteriaKVPairs : Option (List (String × String))
  date : Option String
  startDateTime : Option StartDateTime
  targeting : Option TargetingObj
deriving DecidableEq, Repr

/-- The full mutable state: caches plus the object heap.  A JS object
reference is an index into `heap`; `_.cloneDeep` allocates, property
assignment writes at an index. -/
structure St where
  caches : CacheSt
  heap : List LineItem
deriving DecidableEq

/-- A promise-returning computation over the full state. -/
def JsM (α : Type) : Type := St → Except String α × St

/-- Fulfilled promise.  -/
def pureJ {α : Type} (a : α) : JsM α := fun s => (.ok a, s)

/-- Promise chaining (`.then`); rejection short-circuits. -/
def bindJ {α β : Type} (m : JsM α) (f : α → JsM β) : JsM β :=
  fun s =>
    match m s with
    | (.ok a, s₁) => f a s₁
    | (.error e, s₁) => (.error e, s₁)

/-- Run a cache-level computation inside the full state; the heap is
untouched. -/
def liftC {α : Type} (m : CacheM α) : JsM α :=
  fun s =>
    match m s.caches with
    | (r, c₁) => (r, { s with caches := c₁ })

/-- A JS object reference: an index into the heap. -/
abbrev Ref : Type := Nat

/-- The TypeError raised by accessing a property of `undefined`. -/
def typeErrMsg : String := "TypeError: cannot read property of undefined"

/-- Read the object a reference points to. -/
def readObj (r : Ref) : JsM LineItem :=
  fun s =>
    match s.heap[(r : Nat)]? with
    | some li => (.ok li, s)
    | none => (.error typeErrMsg, s)

/-- `_.cloneDeep(_lineItem)`: allocate a fresh deep copy; the clone
shares no structure with the original. -/
def cloneDeep (r : Ref) : JsM Ref :=
  fun s =>
    match s.heap[(r : Nat)]? with
    | some li => (.ok s.heap.length, { s with heap := s.heap ++ [li] })
    | none => (.error typeErrMsg, s)

/-- A property assignment on the object behind `r`. -/
def mutateObj (r : Ref) (f : LineItem → LineItem) : JsM Unit :=
  fun s =>
    match s.heap[(r : Nat)]? with
    | some li => (.ok (), { s with heap := s.heap.set r (f li) })
    | none => (.error typeErrMsg, s)

/-- Maximal digit runs of a string, each read as a number
(accumulator-based scan). -/
def digitRunsAux : List Char → Option Nat → List Nat
  | [], none => []
  | [], some n => [n]
  | c :: cs, acc =>
    if c.isDigit then
      digitRunsAux cs (some ((acc.getD 0) * 10 + (c.toNat - 48)))
    else
      match acc with
      | none => digitRunsAux cs none
      | some n => n :: digitRunsAux cs none

/-- Modelled from the spec: the external `moment(date,
'MM-DD-YYYY, H:mm:ss')` parse (step 1 of the pipeline, "Replace a human
date string with a structured date/time representation (pure, no remote
call)").  The six digit groups MM, DD, YYYY, H, mm, ss are read off;
anything else is an invalid parse whose numeric fields are NaN.  (A
missing date is also treated as an invalid parse; moment would fall back
to the wall clock, which is outside this model.) -/
def momentParse (date : Option String) : Option (Nat × Nat × Nat × Nat × Nat) :=
  match date with
  | none => none
  | some str =>
    match digitRunsAux str.data none with
    | [mm, dd, yyyy, h, mi, _] => some (yyyy, mm, dd, h, mi)
    | _ => none

/-- The `startDateTime` value `replaceStartDate` writes: year, month
(moment's 0-based month plus one), day as decimal strings, fixed second
"0" and zone "Europe/Oslo"; an invalid parse yields NaN fields. -/
def startDateTimeOf (date : Option String) : StartDateTime :=
  match momentParse date with
  | some (yyyy, mm, dd, h, mi) =>
    { date := { year := toString yyyy, month := toString mm, day := toString dd }
      hour := some h, minute := some mi, second := "0", timeZoneID := "Europe/Oslo" }
  | none =>
    { date := { year := "NaN", month := "NaN", day := "NaN" }
      hour := none, minute := none, second := "0", timeZoneID := "Europe/Oslo" }

/-- The pure field rewrite done by `replaceStartDate` on its clone. -/
def applyStartDate (li : LineItem) : LineItem :=
  { li with startDateTime := some (startDateTimeOf li.date), date := none }

/-- `Dfp.prototype.replaceStartDate(_lineItem)`: clone, write
`startDateTime` from the parsed `date`, delete `date`, return the
clone. -/
def replaceStartDate (r : Ref) : JsM Ref :=
  bindJ (cloneDeep r) fun cl =>
  bindJ (mutateObj cl applyStartDate) fun _ =>
  pureJ cl

/-- `Dfp.prototype.replaceOrderName(_lineItem)`: clone, resolve
`{ name: lineItem.orderName }` through `getOrder`, then set `orderId`
and delete `orderName` on the clone. -/
def replaceOrderName (remote : Remote) (r : Ref) : JsM Ref :=
  bindJ (cloneDeep r) fun cl =>
  bindJ (readObj cl) fun li =>
  bindJ (liftC (getOrder remote [("name", li.orderName)])) fun orderId =>
  bindJ (mutateObj cl fun li₁ => { li₁ with orderId := some orderId, orderName := none })
    fun _ =>
  pureJ cl

/-- The assignment
`lineItem.targeting.inventoryTargeting.targetedAdUnits = [{adUnitId, includeDescendants: true}]`:
throws a TypeError when `targeting` or `inventoryTargeting` is absent. -/
def setTargetedAdUnits (r : Ref) (adUnitId : String) : JsM Unit :=
  bindJ (readObj r) fun li =>
  match li.targeting with
  | none => fun s => (.error typeErrMsg, s)
  | some tg =>
    match tg.inventoryTargeting with
    | none => fun s => (.error typeErrMsg, s)
    | some _ =>
      mutateObj r fun li₁ =>
        let target : AdUnitTarget := { adUnitId := adUnitId, includeDescendants := true }
        let it : InventoryTargeting := { targetedAdUnits := [target] }
        let tgNew : TargetingObj :=
          { inventoryTargeting := some it, customTargeting := tg.customTargeting }
        { li₁ with targeting := some tgNew }

/-- `Dfp.prototype.replaceAdUnitName(_lineItem)`: clone, resolve
`{ name: lineItem.adUnitName }` through `getAdUnit`, install the
targeted ad unit, delete `adUnitName`, return the clone. -/
def replaceAdUnitName (remote : Remote) (r : Ref) : JsM Ref :=
  bindJ (cloneDeep r) fun cl =>
  bindJ (readObj cl) fun li =>
  bindJ (liftC (getAdUnit remote [("name", li.adUnitName)])) fun adUnitId =>
  bindJ (setTargetedAdUnits cl adUnitId) fun _ =>
  bindJ (mutateObj cl fun li₁ => { li₁ with adUnitName := none }) fun _ =>
  pureJ cl

/-- `lineItem.targeting.customTargeting.children[0].children.push(node)`:
throws a TypeError when `targeting` or `customTargeting` is absent or
`children` is empty; otherwise appends to the first group. -/
def pushCriteriaNode (r : Ref) (node : CustomCriteriaNode) : JsM Unit :=
  bindJ (readObj r) fun li =>
  match li.targeting with
  | none => fun s => (.error typeErrMsg, s)
  | some tg =>
    match tg.customTargeting with
    | none => fun s => (.error typeErrMsg, s)
    | some ct =>
      match ct.children with
      | [] => fun s => (.error typeErrMsg, s)
      | g :: gs =>
        mutateObj r fun li₁ =>
          let g' : CustomTargetingGroup := { children := g.children ++ [node] }
          let ctNew : CustomTargeting := { children := g' :: gs }
          let tgNew : TargetingObj :=
            { inventoryTargeting := tg.inventoryTargeting, customTargeting := some ctNew }
          { li₁ with targeting := some tgNew }

/-- The node pushed for one resolved criteria entry. -/
def nodeOfEntry (entry : CriteriaEntry) : CustomCriteriaNode :=
  { attrXsiType := "CustomCriteria", keyId := entry.keyId
    valueIds := entry.valueIds, operator := "IS" }

/-- `_.forEach(criteria, ...)` pushing each resolved entry. -/
def forEachPush (r : Ref) : List CriteriaEntry → JsM Unit
  | [] => pureJ ()
  | entry :: rest => bindJ (pushCriteriaNode r (nodeOfEntry entry)) fun _ => forEachPush r rest

/-- `Dfp.prototype.addCriteria(_lineItem)`: clone, resolve the KV pairs
(`_.pairs(undefined)` is `[]`), push the resolved entries into the
clone's custom targeting, delete `customCriteriaKVPairs`, return the
clone. -/
def addCriteria (remote : Remote) (r : Ref) : JsM Ref :=
  bindJ (cloneDeep r) fun cl =>
  bindJ (readObj cl) fun li =>
  bindJ (liftC (getCriteria remote (li.customCriteriaKVPairs.getD []))) fun criteria =>
  bindJ (forEachPush cl criteria) fun _ =>
  bindJ (mutateObj cl fun li₁ => { li₁ with customCriteriaKVPairs := none }) fun _ =>
  pureJ cl

/-- `Dfp.prototype.prepareLineItem(lineItem)`: the fixed four-step
pipeline; each step receives the previous step's clone. -/
def prepareLineItem (remote : Remote) (r : Ref) : JsM Ref :=
  bindJ (replaceStartDate r) fun r₁ =>
  bindJ (replaceOrderName remote r₁) fun r₂ =>
  bindJ (replaceAdUnitName remote r₂) fun r₃ =>
  addCriteria remote r₃

/-- Fuel-indexed core of lodash `_.chunk`: take a slice of `n`, recurse
on the rest.  The fuel (instantiated with the list length) only forces
structural termination; with `0 < n` it is never exhausted first. -/
def chunkGo {α : Type} (n : Nat) : Nat → List α → List (List α)
  | 0, _ => []
  | _, [] => []
  | fuel + 1, a :: l => (a :: l).take n :: chunkGo n fuel ((a :: l).drop n)

/-- lodash `_.chunk(array, size)`: `[]` when `size < 1`, otherwise the
ordered slices of length `size` (last one possibly shorter). -/
def lodashChunk {α : Type} (l : List α) (n : Nat) : List (List α) :=
  if n = 0 then [] else chunkGo n l.length l

/-- `splitBatches(lineItems)` of the association-creation script
(`_.chunk(lineItems, 100)`; the progress bar is display-only). -/
def splitBatches {α : Type} (lineItems : List α) : List (List α) :=
  lodashChunk lineItems 100

/-- `splitBatches(lineItems)` of `delete-associations-custom.js`
(`_.chunk(lineItems, 50)`). -/
def splitBatchesDelete {α : Type} (lineItems : List α) : List (List α) :=
  lodashChunk lineItems 50

/-- Spec-side description of the filter (for the refinement statement
about `_makeQuery`): one `field like 'value'` clause per allowed field
whose condition value is present and non-empty, in allowed-field
order. -/
def specFilterClauses (c : Conditions) (fields : List String) : List String :=
  fields.filterMap fun f => (c.truthy f).map fun v => likeClause f v

/-- Spec-side AND-combination of clauses (empty list gives the empty
filter). -/
def joinClauses : List String → String
  | [] => ""
  | [cl] => cl
  | cl :: cl' :: cls => cl ++ " and " ++ joinClauses (cl' :: cls)

/-- Internal form of the `_makeQuery` fold result before the trailing
`and` is stripped. -/
def andCat : List String → String
  | [] => ""
  | cl :: cls => (cl ++ " and ") ++ andCat cls

/-- Whether `pat` occurs at the very start of `l`. -/
def beginsList : List Char → List Char → Bool
  | [], _ => true
  | _ :: _, [] => false
  | p :: ps, c :: cs => (p = c) && beginsList ps cs

/-- Whether `pat` occurs anywhere inside `l`. -/
def containsList (pat : List Char) : List Char → Bool
  | [] => beginsList pat []
  | c :: cs => beginsList pat (c :: cs) || containsList pat cs

/-- Whether an error message mentions a field name (used to formalise
"an error identifying the missing field"). -/
def errMentions (msg field : String) : Bool :=
  containsList field.data msg.data

/-- A remote oracle answering every query with a single entity carrying
the given id (the "mock remote" of the spec scenarios). -/
def constRemote (id : String) : Remote :=
  fun _ _ _ => { results := some [{ id := some id }] }

/-- Fresh caches: all stores empty, no remote calls, writes succeed. -/
def emptyCaches : CacheSt :=
  { criteriaKeyStore := [], criteriaValueStore := [], adUnitStore := [],
    orderStore := [], labelStore := [], remoteCalls := 0, putFails := false }

/-- Fresh caches whose back-fill writes fail (injected
CacheWriteError). -/
def failingCaches : CacheSt :=
  { emptyCaches with putFails := true }

/-- The criteria-key query issued for name "hb_pb". -/
def hbKeyQuery : String := makeQuery [("name", some "hb_pb")] CRITERIA_KEY_FIELDS

/-- The hand-built criteria-value query for value "0.50" scoped to key
id "K1". -/
def hbValueQuery : String :=
  "Where customTargetingKeyId = " ++ sglq ++ "K1" ++ sglq
    ++ " and name like " ++ sglq ++ "0.50" ++ sglq

/-- The mock remote of the criteria scenario: key name "hb_pb" resolves
to "K1", value "0.50" scoped to "K1" resolves to "V1". -/
def remoteHb : Remote :=
  fun _ method query =>
    if method = "getCustomTargetingKeysByStatement" ∧ query = hbKeyQuery then
      { results := some [{ id := some "K1" }] }
    else if method = "getCustomTargetingValuesByStatement" ∧ query = hbValueQuery then
      { results := some [{ id := some "V1" }] }
    else { results := none }

/-- The customTargeting skeleton the formatter gives every line item:
one empty child group (criteria nodes are pushed into it). -/
def emptyTargeting : TargetingObj :=
  { inventoryTargeting := some { targetedAdUnits := [] },
    customTargeting := some { children := [{ children := [] }] } }

/-- A fully-formed line item as produced by the formatting layer. -/
def sampleLineItem : LineItem :=
  { orderName := some "yo_first_order", orderId := none, adUnitName := some "TV2no",
    customCriteriaKVPairs := some [("hb_pb", "0.50")],
    date := some "10-26-2017, 15:00:00", startDateTime := none,
    targeting := some emptyTargeting }

/-- Fresh full state holding just the sample line item. -/
def sampleSt : St := { caches := emptyCaches, heap := [sampleLineItem] }

/-- The sample line item with its required `orderName` reference
missing. -/
def noOrderLineItem : LineItem := { sampleLineItem with orderName := none }

/-- Fresh full state holding just the order-less line item. -/
def noOrderSt : St := { caches := emptyCaches, heap := [noOrderLineItem] }

/-! Evaluation lemmas for the promise combinators and store primitives. -/

theorem bindC_ok {α β : Type} {m : CacheM α} {f : α → CacheM β} {s s₁ : CacheSt} {a : α}
    (h : m s = (.ok a, s₁)) : bindC m f s = f a s₁ := by
  unfold bindC
  rw [h]

theorem bindC_err {α β : Type} {m : CacheM α} {f : α → CacheM β} {s s₁ : CacheSt} {e : String}
    (h : m s = (.error e, s₁)) : bindC m f s = (.error e, s₁) := by
  unfold bindC
  rw [h]

theorem catchC_ok {α : Type} {m : CacheM α} {hnd : String → CacheM α} {s s₁ : CacheSt} {a : α}
    (h : m s = (.ok a, s₁)) : catchC m hnd s = (.ok a, s₁) := by
  unfold catchC
  rw [h]

theorem catchC_err {α : Type} {m : CacheM α} {hnd : String → CacheM α} {s s₁ : CacheSt}
    {e : String} (h : m s = (.error e, s₁)) : catchC m hnd s = hnd e s₁ := by
  unfold catchC
  rw [h]

theorem bindC_liftE {α β : Type} (e : Except String α) (f : α → CacheM β) (s : CacheSt) :
    bindC (liftE e) f s =
      match e with
      | .ok a => f a s
      | .error err => (.error err, s) := by
  cases e <;> rfl

theorem getAsync_hit {n : StoreName} {k v : String} {s : CacheSt}
    (h : (s.store n).find k = some v) : getAsync n (some k) s = (.ok v, s) := by
  unfold getAsync
  simp only [h]

theorem getAsync_miss {n : StoreName} {k : String} {s : CacheSt}
    (h : (s.store n).find k = none) :
    getAsync n (some k) s = (.error "NotFoundError: Key not found in database", s) := by
  unfold getAsync
  simp only [h]

theorem getAsync_noKey (n : StoreName) (s : CacheSt) :
    getAsync n none s = (.error levelKeyErrMsg, s) := rfl

theorem putAsync_ok {n : StoreName} {k v : String} {s : CacheSt} (h : s.putFails = false) :
    putAsync n (some k) v s = (.ok (), s.setStore n ((k, v) :: s.store n)) := by
  unfold putAsync
  simp only [h]
  rfl

theorem putAsync_fail {n : StoreName} {k v : String} {s : CacheSt} (h : s.putFails = true) :
    putAsync n (some k) v s = (.error putErrMsg, s) := by
  unfold putAsync
  simp only [h]
  rfl

theorem putAsync_noKey (n : StoreName) (v : String) (s : CacheSt) :
    putAsync n none v s = (.error levelKeyErrMsg, s) := rfl

theorem executeAPI_eval (remote : Remote) (sv mth q : String) (s : CacheSt) :
    executeAPI remote sv mth q s =
      (.ok (remote sv mth q), { s with remoteCalls := s.remoteCalls + 1 }) := rfl

theorem store_setStore_self (s : CacheSt) (n : StoreName) (st : Store) :
    (s.setStore n st).store n = st := by
  cases n <;> rfl

theorem putFails_setStore (s : CacheSt) (n : StoreName) (st : Store) :
    (s.setStore n st).putFails = s.putFails := by
  cases n <;> rfl

theorem remoteCalls_setStore (s : CacheSt) (n : StoreName) (st : Store) :
    (s.setStore n st).remoteCalls = s.remoteCalls := by
  cases n <;> rfl

theorem find_cons_self (k v : String) (st : Store) :
    Store.find ((k, v) :: st) k = some v := by
  simp [Store.find]

theorem condGet_name (v : Option String) :
    Conditions.get [("name", v)] "name" = v := by
  simp [Conditions.get]

/-- The common remote-query-then-extract tail shared by `getCriteriaKey`,
`getCriteriaValue`, `getLabel` and the miss branches of `getAdUnit` and
`getOrder`: one counted remote call whose response runs through
`extractResults` and `extractFirstId`. -/
theorem remoteExtract_eval (remote : Remote) (sv mth q : String) (s : CacheSt) :
    (bindC (executeAPI remote sv mth q) fun response =>
      bindC (liftE (extractResults response)) fun results =>
      liftE (extractFirstId results)) s =
    ((extractResults (remote sv mth q)).bind extractFirstId,
      { s with remoteCalls := s.remoteCalls + 1 }) := by
  rw [bindC_ok (executeAPI_eval remote sv mth q s)]
  rw [bindC_liftE]
  cases hE : extractResults (remote sv mth q) with
  | error e => rfl
  | ok rs => rfl

theorem getCriteriaKey_eval (remote : Remote) (c : Conditions) (s : CacheSt) :
    getCriteriaKey remote c s =
      ((extractResults (remote "CustomTargetingService" "getCustomTargetingKeysByStatement"
          (makeQuery c CRITERIA_KEY_FIELDS))).bind extractFirstId,
        { s with remoteCalls := s.remoteCalls + 1 }) :=
  remoteExtract_eval remote _ _ _ s


/-! Case-by-case evaluation of the shared `fetch`-then-back-fill handler
(`.then(id => put(id).then(() => id))`) used by the cached lookups. -/

theorem fetchPut_err {fetch : CacheM String} {n : StoreName} {key : Option String}
    {e : String} {s s' : CacheSt} (hf : fetch s = (.error e, s')) :
    (bindC fetch fun id => bindC (putAsync n key id) fun _ => pureC id) s = (.error e, s') :=
  bindC_err hf

theorem fetchPut_ok_noKey {fetch : CacheM String} {n : StoreName} {i : String}
    {s s' : CacheSt} (hf : fetch s = (.ok i, s')) :
    (bindC fetch fun id => bindC (putAsync n none id) fun _ => pureC id) s =
      (.error levelKeyErrMsg, s') := by
  rw [bindC_ok hf]
  exact bindC_err (putAsync_noKey n i s')

theorem fetchPut_ok_fail {fetch : CacheM String} {n : StoreName} {k i : String}
    {s s' : CacheSt} (hf : fetch s = (.ok i, s')) (hpf : s'.putFails = true) :
    (bindC fetch fun id => bindC (putAsync n (some k) id) fun _ => pureC id) s =
      (.error putErrMsg, s') := by
  rw [bindC_ok hf]
  exact bindC_err (putAsync_fail hpf)

theorem fetchPut_ok_write {fetch : CacheM String} {n : StoreName} {k i : String}
    {s s' : CacheSt} (hf : fetch s = (.ok i, s')) (hpf : s'.putFails = false) :
    (bindC fetch fun id => bindC (putAsync n (some k) id) fun _ => pureC id) s =
      (.ok i, s'.setStore n ((k, i) :: s'.store n)) := by
  rw [bindC_ok hf]
  rw [bindC_ok (putAsync_ok hpf)]
  rfl

/-! Case-by-case evaluation of the inlined remote-extract-back-fill
handlers of `getOrder` and `getAdUnit`. -/

theorem remoteChainPut_err {remote : Remote} {sv mth q : String} {n : StoreName}
    {key : Option String} {e : String} (s : CacheSt)
    (h : (extractResults (remote sv mth q)).bind extractFirstId = .error e) :
    (bindC (executeAPI remote sv mth q) fun response =>
      bindC (liftE (extractResults response)) fun results =>
      bindC (liftE (extractFirstId results)) fun id =>
      bindC (putAsync n key id) fun _ => pureC id) s =
    (.error e, { s with remoteCalls := s.remoteCalls + 1 }) := by
  rw [bindC_ok (executeAPI_eval remote sv mth q s)]
  rw [bindC_liftE]
  cases hR : extractResults (remote sv mth q) with
  | error e₂ =>
    rw [hR] at h
    simp only [Except.bind] at h
    cases h
    rfl
  | ok rs =>
    rw [hR] at h
    simp only [Except.bind] at h
    simp only []
    rw [bindC_liftE, h]

theorem remoteChainPut_ok_noKey {remote : Remote} {sv mth q : String} {n : StoreName}
    {i : String} (s : CacheSt)
    (h : (extractResults (remote sv mth q)).bind extractFirstId = .ok i) :
    (bindC (executeAPI remote sv mth q) fun response =>
      bindC (liftE (extractResults response)) fun results =>
      bindC (liftE (extractFirstId results)) fun id =>
      bindC (putAsync n none id) fun _ => pureC id) s =
    (.error levelKeyErrMsg, { s with remoteCalls := s.remoteCalls + 1 }) := by
  rw [bindC_ok (executeAPI_eval remote sv mth q s)]
  rw [bindC_liftE]
  cases hR : extractResults (remote sv mth q) with
  | error e₂ =>
    rw [hR] at h
    simp only [Except.bind] at h
    exact Except.noConfusion h
  | ok rs =>
    rw [hR] at h
    simp only [Except.bind] at h
    simp only []
    rw [bindC_liftE, h]
    exact bindC_err (putAsync_noKey n i _)

theorem remoteChainPut_ok_fail {remote : Remote} {sv mth q : String} {n : StoreName}
    {k i : String} (s : CacheSt)
    (h : (extractResults (remote sv mth q)).bind extractFirstId = .ok i)
    (hpf : s.putFails = true) :
    (bindC (executeAPI remote sv mth q) fun response =>
      bindC (liftE (extractResults response)) fun results =>
      bindC (liftE (extractFirstId results)) fun id =>
      bindC (putAsync n (some k) id) fun _ => pureC id) s =
    (.error putErrMsg, { s with remoteCalls := s.remoteCalls + 1 }) := by
  rw [bindC_ok (executeAPI_eval remote sv mth q s)]
  rw [bindC_liftE]
  cases hR : extractResults (remote sv mth q) with
  | error e₂ =>
    rw [hR] at h
    simp only [Except.bind] at h
    exact Except.noConfusion h
  | ok rs =>
    rw [hR] at h
    simp only [Except.bind] at h
    simp only []
    rw [bindC_liftE, h]
    exact bindC_err (putAsync_fail hpf)

theorem remoteChainPut_ok_write {remote : Remote} {sv mth q : String} {n : StoreName}
    {k i : String} (s : CacheSt)
    (h : (extractResults (remote sv mth q)).bind extractFirstId = .ok i)
    (hpf : s.putFails = false) :
    (bindC (executeAPI remote sv mth q) fun response =>
      bindC (liftE (extractResults response)) fun results =>
      bindC (liftE (extractFirstId results)) fun id =>
      bindC (putAsync n (some k) id) fun _ => pureC id) s =
    (.ok i, ({ s with remoteCalls := s.remoteCalls + 1 } : CacheSt).setStore n
      ((k, i) :: ({ s with remoteCalls := s.remoteCalls + 1 } : CacheSt).store n)) := by
  rw [bindC_ok (executeAPI_eval remote sv mth q s)]
  rw [bindC_liftE]
  cases hR : extractResults (remote sv mth q) with
  | error e₂ =>
    rw [hR] at h
    simp only [Except.bind] at h
    exact Except.noConfusion h
  | ok rs =>
    rw [hR] at h
    simp only [Except.bind] at h
    simp only []
    rw [bindC_liftE, h]
    exact bindC_ok (putAsync_ok hpf)

theorem condStr_ctkid (value keyId : String) :
    Conditions.str [("name", some value), ("customTargetingKeyId", some keyId)]
      "customTargetingKeyId" = keyId := by
  simp [Conditions.str, Conditions.get]

theorem condStr_name (value keyId : String) :
    Conditions.str [("name", some value), ("customTargetingKeyId", some keyId)] "name"
      = value := by
  simp [Conditions.str, Conditions.get]

theorem getCriteriaValue_eval (remote : Remote) (value keyId : String) (s : CacheSt) :
    getCriteriaValue remote [("name", some value), ("customTargetingKeyId", some keyId)] s =
      ((extractResults (remote "CustomTargetingService"
          "getCustomTargetingValuesByStatement"
          ("Where customTargetingKeyId = " ++ sglq ++ keyId ++ sglq
            ++ " and name like " ++ sglq ++ value ++ sglq))).bind extractFirstId,
        { s with remoteCalls := s.remoteCalls + 1 }) := by
  unfold getCriteriaValue
  rw [condStr_ctkid, condStr_name]
  exact remoteExtract_eval remote _ _ _ s

theorem getLabel_eval (remote : Remote) (c : Conditions) (s : CacheSt) :
    getLabel remote c s =
      ((extractResults (remote "LabelService" "getLabelsByStatement"
          (makeQuery c LABEL_FIELDS))).bind extractFirstId,
        { s with remoteCalls := s.remoteCalls + 1 }) :=
  remoteExtract_eval remote _ _ _ s

/-- Full characterisation of `lookupCriteriaKey`: a store hit returns
immediately with the state untouched; a miss makes exactly one remote
call and, on success, back-fills the store under the plain name (a
failed back-fill rejects the whole resolution). -/
theorem lookupCriteriaKey_eval (remote : Remote) (name : String) (s : CacheSt) :
    lookupCriteriaKey remote name s =
      match (s.store .criteriaKey).find name with
      | some v => (.ok v, s)
      | none =>
        match (extractResults (remote "CustomTargetingService"
            "getCustomTargetingKeysByStatement"
            (makeQuery [("name", some name)] CRITERIA_KEY_FIELDS))).bind extractFirstId with
        | .error e => (.error e, { s with remoteCalls := s.remoteCalls + 1 })
        | .ok i =>
          if s.putFails then
            (.error putErrMsg, { s with remoteCalls := s.remoteCalls + 1 })
          else
            (.ok i, ({ s with remoteCalls := s.remoteCalls + 1 } : CacheSt).setStore
              .criteriaKey
              ((name, i) ::
                ({ s with remoteCalls := s.remoteCalls + 1 } : CacheSt).store .criteriaKey)) := by
  unfold lookupCriteriaKey
  cases hfind : (s.store .criteriaKey).find name with
  | some v => rw [catchC_ok (getAsync_hit hfind)]
  | none =>
    rw [catchC_err (getAsync_miss hfind)]
    cases hE : (extractResults (remote "CustomTargetingService"
        "getCustomTargetingKeysByStatement"
        (makeQuery [("name", some name)] CRITERIA_KEY_FIELDS))).bind extractFirstId with
    | error e => exact fetchPut_err (by rw [getCriteriaKey_eval, hE])
    | ok i =>
      simp only []
      by_cases hpf : s.putFails = true
      · rw [if_pos hpf]
        exact fetchPut_ok_fail (by rw [getCriteriaKey_eval, hE]) hpf
      · rw [if_neg hpf]
        have hfalse : s.putFails = false := by
          revert hpf
          cases s.putFails <;> simp
        exact fetchPut_ok_write (by rw [getCriteriaKey_eval, hE]) hfalse

/-- Full characterisation of `lookupLabel` (same shape as
`lookupCriteriaKey` over the label store). -/
theorem lookupLabel_eval (remote : Remote) (name : String) (s : CacheSt) :
    lookupLabel remote name s =
      match (s.store .label).find name with
      | some v => (.ok v, s)
      | none =>
        match (extractResults (remote "LabelService" "getLabelsByStatement"
            (makeQuery [("name", some name)] LABEL_FIELDS))).bind extractFirstId with
        | .error e => (.error e, { s with remoteCalls := s.remoteCalls + 1 })
        | .ok i =>
          if s.putFails then
            (.error putErrMsg, { s with remoteCalls := s.remoteCalls + 1 })
          else
            (.ok i, ({ s with remoteCalls := s.remoteCalls + 1 } : CacheSt).setStore .label
              ((name, i) ::
                ({ s with remoteCalls := s.remoteCalls + 1 } : CacheSt).store .label)) := by
  unfold lookupLabel
  cases hfind : (s.store .label).find name with
  | some v => rw [catchC_ok (getAsync_hit hfind)]
  | none =>
    rw [catchC_err (getAsync_miss hfind)]
    cases hE : (extractResults (remote "LabelService" "getLabelsByStatement"
        (makeQuery [("name", some name)] LABEL_FIELDS))).bind extractFirstId with
    | error e => exact fetchPut_err (by rw [getLabel_eval, hE])
    | ok i =>
      simp only []
      by_cases hpf : s.putFails = true
      · rw [if_pos hpf]
        exact fetchPut_ok_fail (by rw [getLabel_eval, hE]) hpf
      · rw [if_neg hpf]
        have hfalse : s.putFails = false := by
          revert hpf
          cases s.putFails <;> simp
        exact fetchPut_ok_write (by rw [getLabel_eval, hE]) hfalse

/-- Full characterisation of `getOrder`, including the undefined-name
case: the levelup key error is caught, the (match-all) remote query
still runs, and the back-fill write then rejects on the undefined
key. -/
theorem getOrder_eval (remote : Remote) (c : Conditions) (s : CacheSt) :
    getOrder remote c s =
      match c.get "name" with
      | some k =>
        match (s.store .order).find k with
        | some v => (.ok v, s)
        | none =>
          match (extractResults (remote "OrderService" "getOrdersByStatement"
              (makeQuery c ORDER_FIELDS))).bind extractFirstId with
          | .error e => (.error e, { s with remoteCalls := s.remoteCalls + 1 })
          | .ok i =>
            if s.putFails then
              (.error putErrMsg, { s with remoteCalls := s.remoteCalls + 1 })
            else
              (.ok i, ({ s with remoteCalls := s.remoteCalls + 1 } : CacheSt).setStore .order
                ((k, i) ::
                  ({ s with remoteCalls := s.remoteCalls + 1 } : CacheSt).store .order))
      | none =>
        match (extractResults (remote "OrderService" "getOrdersByStatement"
            (makeQuery c ORDER_FIELDS))).bind extractFirstId with
        | .error e => (.error e, { s with remoteCalls := s.remoteCalls + 1 })
        | .ok _ => (.error levelKeyErrMsg, { s with remoteCalls := s.remoteCalls + 1 }) := by
  unfold getOrder
  cases hkey : c.get "name" with
  | some k =>
    cases hfind : (s.store .order).find k with
    | some v =>
      rw [catchC_ok (getAsync_hit hfind)]
      simp only [hfind]
    | none =>
      rw [catchC_err (getAsync_miss hfind)]
      simp only [hfind]
      cases hE : (extractResults (remote "OrderService" "getOrdersByStatement"
          (makeQuery c ORDER_FIELDS))).bind extractFirstId with
      | error e => exact remoteChainPut_err s hE
      | ok i =>
        simp only []
        by_cases hpf : s.putFails = true
        · rw [if_pos hpf]
          exact remoteChainPut_ok_fail s hE hpf
        · rw [if_neg hpf]
          have hfalse : s.putFails = false := by
            revert hpf
            cases s.putFails <;> simp
          exact remoteChainPut_ok_write s hE hfalse
  | none =>
    rw [catchC_err (getAsync_noKey .order s)]
    cases hE : (extractResults (remote "OrderService" "getOrdersByStatement"
        (makeQuery c ORDER_FIELDS))).bind extractFirstId with
    | error e => exact remoteChainPut_err s hE
    | ok i => exact remoteChainPut_ok_noKey s hE

/-- Full characterisation of `getAdUnit`: the store read always uses the
stringified `Statement` object as key, while the back-fill write uses
the name, so a back-filled entry is never read back. -/
theorem getAdUnit_eval (remote : Remote) (c : Conditions) (s : CacheSt) :
    getAdUnit remote c s =
      match (s.store .adUnit).find statementLevelKey with
      | some v => (.ok v, s)
      | none =>
        match (extractResults (remote "InventoryService" "getAdUnitsByStatement"
            (makeQuery c AD_UNIT_FIELDS))).bind extractFirstId with
        | .error e => (.error e, { s with remoteCalls := s.remoteCalls + 1 })
        | .ok i =>
          match c.get "name" with
          | none => (.error levelKeyErrMsg, { s with remoteCalls := s.remoteCalls + 1 })
          | some k =>
            if s.putFails then
              (.error putErrMsg, { s with remoteCalls := s.remoteCalls + 1 })
            else
              (.ok i, ({ s with remoteCalls := s.remoteCalls + 1 } : CacheSt).setStore .adUnit
                ((k, i) ::
                  ({ s with remoteCalls := s.remoteCalls + 1 } : CacheSt).store .adUnit)) := by
  unfold getAdUnit
  cases hfind : (s.store .adUnit).find statementLevelKey with
  | some v => rw [catchC_ok (getAsync_hit hfind)]
  | none =>
    rw [catchC_err (getAsync_miss hfind)]
    cases hE : (extractResults (remote "InventoryService" "getAdUnitsByStatement"
        (makeQuery c AD_UNIT_FIELDS))).bind extractFirstId with
    | error e => exact remoteChainPut_err s hE
    | ok i =>
      cases hkey : c.get "name" with
      | none => exact remoteChainPut_ok_noKey s hE
      | some k =>
        simp only []
        by_cases hpf : s.putFails = true
        · rw [if_pos hpf]
          exact remoteChainPut_ok_fail s hE hpf
        · rw [if_neg hpf]
          have hfalse : s.putFails = false := by
            revert hpf
            cases s.putFails <;> simp
          exact remoteChainPut_ok_write s hE hfalse

/-- Full characterisation of `lookupCriteriaValues`: composite store key
`keyId:value`, singleton result on success, rejection on a failed
back-fill. -/
theorem lookupCriteriaValues_eval (remote : Remote) (value keyId : String) (s : CacheSt) :
    lookupCriteriaValues remote value keyId s =
      match (s.store .criteriaValue).find (keyId ++ ":" ++ value) with
      | some v => (.ok [v], s)
      | none =>
        match (extractResults (remote "CustomTargetingService"
            "getCustomTargetingValuesByStatement"
            ("Where customTargetingKeyId = " ++ sglq ++ keyId ++ sglq
              ++ " and name like " ++ sglq ++ value ++ sglq))).bind extractFirstId with
        | .error e => (.error e, { s with remoteCalls := s.remoteCalls + 1 })
        | .ok i =>
          if s.putFails then
            (.error putErrMsg, { s with remoteCalls := s.remoteCalls + 1 })
          else
            (.ok [i], ({ s with remoteCalls := s.remoteCalls + 1 } : CacheSt).setStore
              .criteriaValue
              ((keyId ++ ":" ++ value, i) ::
                ({ s with remoteCalls := s.remoteCalls + 1 } : CacheSt).store
                  .criteriaValue)) := by
  unfold lookupCriteriaValues
  cases hfind : (s.store .criteriaValue).find (keyId ++ ":" ++ value) with
  | some v =>
    rw [bindC_ok (catchC_ok (getAsync_hit hfind))]
    rfl
  | none =>
    cases hE : (extractResults (remote "CustomTargetingService"
        "getCustomTargetingValuesByStatement"
        ("Where customTargetingKeyId = " ++ sglq ++ keyId ++ sglq
          ++ " and name like " ++ sglq ++ value ++ sglq))).bind extractFirstId with
    | error e =>
      have hm : getCriteriaValue remote
          [("name", some value), ("customTargetingKeyId", some keyId)] s
          = (.error e, { s with remoteCalls := s.remoteCalls + 1 }) := by
        rw [getCriteriaValue_eval, hE]
      have hin : (catchC (getAsync .criteriaValue (some (keyId ++ ":" ++ value))) fun _ =>
          bindC (getCriteriaValue remote
              [("name", some value), ("customTargetingKeyId", some keyId)]) fun valueId =>
          bindC (putAsync .criteriaValue (some (keyId ++ ":" ++ value)) valueId) fun _ =>
          pureC valueId) s
          = (.error e, { s with remoteCalls := s.remoteCalls + 1 }) := by
        rw [catchC_err (getAsync_miss hfind)]
        exact fetchPut_err hm
      exact bindC_err hin
    | ok i =>
      have hm : getCriteriaValue remote
          [("name", some value), ("customTargetingKeyId", some keyId)] s
          = (.ok i, { s with remoteCalls := s.remoteCalls + 1 }) := by
        rw [getCriteriaValue_eval, hE]
      simp only []
      by_cases hpf : s.putFails = true
      · rw [if_pos hpf]
        have hin : (catchC (getAsync .criteriaValue (some (keyId ++ ":" ++ value))) fun _ =>
            bindC (getCriteriaValue remote
                [("name", some value), ("customTargetingKeyId", some keyId)]) fun valueId =>
            bindC (putAsync .criteriaValue (some (keyId ++ ":" ++ value)) valueId) fun _ =>
            pureC valueId) s
            = (.error putErrMsg, { s with remoteCalls := s.remoteCalls + 1 }) := by
          rw [catchC_err (getAsync_miss hfind)]
          exact fetchPut_ok_fail hm hpf
        exact bindC_err hin
      · rw [if_neg hpf]
        have hfalse : s.putFails = false := by
          revert hpf
          cases s.putFails <;> simp
        have hin : (catchC (getAsync .criteriaValue (some (keyId ++ ":" ++ value))) fun _ =>
            bindC (getCriteriaValue remote
                [("name", some value), ("customTargetingKeyId", some keyId)]) fun valueId =>
            bindC (putAsync .criteriaValue (some (keyId ++ ":" ++ value)) valueId) fun _ =>
            pureC valueId) s
            = (.ok i, ({ s with remoteCalls := s.remoteCalls + 1 } : CacheSt).setStore
                .criteriaValue
                ((keyId ++ ":" ++ value, i) ::
                  ({ s with remoteCalls := s.remoteCalls + 1 } : CacheSt).store
                    .criteriaValue)) := by
          rw [catchC_err (getAsync_miss hfind)]
          exact fetchPut_ok_write hm hfalse
        rw [bindC_ok hin]
        rfl

/-- Claim C1: for a criteria-key name (and an order name), once one
resolution has succeeded (back-filling the per-namespace cache), a
second resolve call for the same name returns the identical identifier
and the state — including the remote-call counter — is left exactly as
it was: the cache hit returns immediately and no additional remote call
is made. -/
theorem resolve_second_call_is_cached (remote : Remote) (name id : String)
    (s s₁ : CacheSt) :
    (lookupCriteriaKey remote name s = (.ok id, s₁) →
      lookupCriteriaKey remote name s₁ = (.ok id, s₁)) ∧
    (getOrder remote [("name", some name)] s = (.ok id, s₁) →
      getOrder remote [("name", some name)] s₁ = (.ok id, s₁)) := by
  constructor
  · intro h
    rw [lookupCriteriaKey_eval] at h
    cases hfind : (s.store .criteriaKey).find name with
    | some v =>
      simp only [hfind] at h
      injection h with h1 h2
      injection h1 with h1
      subst h1
      subst h2
      rw [lookupCriteriaKey_eval]
      simp only [hfind]
    | none =>
      simp only [hfind] at h
      cases hE : (extractResults (remote "CustomTargetingService"
          "getCustomTargetingKeysByStatement"
          (makeQuery [("name", some name)] CRITERIA_KEY_FIELDS))).bind extractFirstId with
      | error e =>
        simp only [hE] at h
        injection h with h1 h2
        exact Except.noConfusion h1
      | ok i =>
        simp only [hE] at h
        by_cases hpf : s.putFails = true
        · rw [if_pos hpf] at h
          injection h with h1 h2
          exact Except.noConfusion h1
        · rw [if_neg hpf] at h
          injection h with h1 h2
          injection h1 with h1
          subst h1
          subst h2
          rw [lookupCriteriaKey_eval]
          have hstore : ((({ s with remoteCalls := s.remoteCalls + 1 } : CacheSt).setStore
              .criteriaKey
              ((name, i) ::
                ({ s with remoteCalls := s.remoteCalls + 1 } : CacheSt).store
                  .criteriaKey)).store .criteriaKey).find name = some i := by
            rw [store_setStore_self]
            exact find_cons_self name i _
          simp only [hstore]
  · intro h
    rw [getOrder_eval] at h
    simp only [condGet_name] at h
    cases hfind : (s.store .order).find name with
    | some v =>
      simp only [hfind] at h
      injection h with h1 h2
      injection h1 with h1
      subst h1
      subst h2
      rw [getOrder_eval]
      simp only [condGet_name, hfind]
    | none =>
      simp only [hfind] at h
      cases hE : (extractResults (remote "OrderService" "getOrdersByStatement"
          (makeQuery [("name", some name)] ORDER_FIELDS))).bind extractFirstId with
      | error e =>
        simp only [hE] at h
        injection h with h1 h2
        exact Except.noConfusion h1
      | ok i =>
        simp only [hE] at h
        by_cases hpf : s.putFails = true
        · rw [if_pos hpf] at h
          injection h with h1 h2
          exact Except.noConfusion h1
        · rw [if_neg hpf] at h
          injection h with h1 h2
          injection h1 with h1
          subst h1
          subst h2
          rw [getOrder_eval]
          simp only [condGet_name]
          have hstore : ((({ s with remoteCalls := s.remoteCalls + 1 } : CacheSt).setStore
              .order
              ((name, i) ::
                ({ s with remoteCalls := s.remoteCalls + 1 } : CacheSt).store
                  .order)).store .order).find name = some i := by
            rw [store_setStore_self]
            exact find_cons_self name i _
          simp only [hstore]

/-- Concrete run of the claim-C1 theorem: resolving "hb_pb" (criteria
key) and "yo_first_order" (order) against a one-entity mock remote from
fresh caches, then resolving again from the resulting state. -/
theorem resolve_second_call_is_cached_witness :
    lookupCriteriaKey (constRemote "K1") "hb_pb"
        ((lookupCriteriaKey (constRemote "K1") "hb_pb" emptyCaches).2)
      = (.ok "K1", (lookupCriteriaKey (constRemote "K1") "hb_pb" emptyCaches).2) ∧
    getOrder (constRemote "O1") [("name", some "yo_first_order")]
        ((getOrder (constRemote "O1") [("name", some "yo_first_order")] emptyCaches).2)
      = (.ok "O1", (getOrder (constRemote "O1") [("name", some "yo_first_order")]
          emptyCaches).2) :=
  ⟨(resolve_second_call_is_cached (constRemote "K1") "hb_pb" "K1" emptyCaches _).1
      (by decide),
    (resolve_second_call_is_cached (constRemote "O1") "yo_first_order" "O1" emptyCaches _).2
      (by decide)⟩

/-- Counterexample to claim C2 as stated: with a fresh criteria-key
cache, a mock remote that successfully returns id "K9", and a failing
back-fill write, `lookupCriteriaKey` does NOT succeed with the freshly
fetched identifier — it rejects with the write error, because the
`.catch` handler logs and rethrows. -/
theorem cacheWrite_failure_cex :
    (lookupCriteriaKey (constRemote "K9") "hb_pb" failingCaches).1
      = .error putErrMsg := by
  decide

/-- Claim C2 (amended): for each of the four cache-backed lookups
(`lookupCriteriaKey`, `lookupCriteriaValues`, `getOrder`,
`lookupLabel`), when the store misses, the remote lookup succeeds, and
the cache back-fill write fails, the resolution FAILS with the write
error (logged and rethrown / propagated through the `tap`); the freshly
fetched identifier is not returned. -/
theorem cacheWrite_failure_is_fatal (remote : Remote) (name value keyId id : String)
    (s : CacheSt) (hpf : s.putFails = true) :
    ((s.store .criteriaKey).find name = none →
      (extractResults (remote "CustomTargetingService"
        "getCustomTargetingKeysByStatement"
        (makeQuery [("name", some name)] CRITERIA_KEY_FIELDS))).bind extractFirstId
          = .ok id →
      (lookupCriteriaKey remote name s).1 = .error putErrMsg) ∧
    ((s.store .criteriaValue).find (keyId ++ ":" ++ value) = none →
      (extractResults (remote "CustomTargetingService"
        "getCustomTargetingValuesByStatement"
        ("Where customTargetingKeyId = " ++ sglq ++ keyId ++ sglq
          ++ " and name like " ++ sglq ++ value ++ sglq))).bind extractFirstId = .ok id →
      (lookupCriteriaValues remote value keyId s).1 = .error putErrMsg) ∧
    ((s.store .order).find name = none →
      (extractResults (remote "OrderService" "getOrdersByStatement"
        (makeQuery [("name", some name)] ORDER_FIELDS))).bind extractFirstId = .ok id →
      (getOrder remote [("name", some name)] s).1 = .error putErrMsg) ∧
    ((s.store .label).find name = none →
      (extractResults (remote "LabelService" "getLabelsByStatement"
        (makeQuery [("name", some name)] LABEL_FIELDS))).bind extractFirstId = .ok id →
      (lookupLabel remote name s).1 = .error putErrMsg) := by
  refine ⟨fun hfind hE => ?_, fun hfind hE => ?_, fun hfind hE => ?_, fun hfind hE => ?_⟩
  · rw [lookupCriteriaKey_eval]
    simp [hfind, hE, hpf]
  · rw [lookupCriteriaValues_eval]
    simp [hfind, hE, hpf]
  · rw [getOrder_eval]
    simp [condGet_name, hfind, hE, hpf]
  · rw [lookupLabel_eval]
    simp [hfind, hE, hpf]

/-- Concrete run of the amended claim-C2 theorem on fresh caches with an
injected write fault and a one-entity mock remote. -/
theorem cacheWrite_failure_is_fatal_witness :
    (lookupCriteriaKey (constRemote "K9") "names" failingCaches).1 = .error putErrMsg ∧
    (lookupCriteriaValues (constRemote "K9") "0.50" "K1" failingCaches).1
      = .error putErrMsg ∧
    (getOrder (constRemote "K9") [("name", some "names")] failingCaches).1
      = .error putErrMsg ∧
    (lookupLabel (constRemote "K9") "names" failingCaches).1 = .error putErrMsg :=
  ⟨(cacheWrite_failure_is_fatal (constRemote "K9") "names" "0.50" "K1" "K9" failingCaches
      (by decide)).1 (by decide) (by decide),
   (cacheWrite_failure_is_fatal (constRemote "K9") "names" "0.50" "K1" "K9" failingCaches
      (by decide)).2.1 (by decide) (by decide),
   (cacheWrite_failure_is_fatal (constRemote "K9") "names" "0.50" "K1" "K9" failingCaches
      (by decide)).2.2.1 (by decide) (by decide),
   (cacheWrite_failure_is_fatal (constRemote "K9") "names" "0.50" "K1" "K9" failingCaches
      (by decide)).2.2.2 (by decide) (by decide)⟩

/-- Claim C3 evaluated on the code (the code contradicts the claim and
the cache's own documented purpose): resolving ad-unit name "TV2no"
against a mock remote that returns "21661848134" succeeds and populates
the ad-unit store under "TV2no", but an immediately repeated resolution
is NOT served by the cache — `getAdUnit` reads the store with the
stringified `Statement` object as key ("[object Object]"), never with
the name it wrote — so the remote is invoked a second time: two remote
calls in total instead of the claimed one. -/
theorem getAdUnit_repeat_hits_remote_again :
    (getAdUnit (constRemote "21661848134") [("name", some "TV2no")] emptyCaches).1
      = .ok "21661848134" ∧
    (getAdUnit (constRemote "21661848134") [("name", some "TV2no")]
      emptyCaches).2.adUnitStore = [("TV2no", "21661848134")] ∧
    (getAdUnit (constRemote "21661848134") [("name", some "TV2no")]
      emptyCaches).2.remoteCalls = 1 ∧
    (getAdUnit (constRemote "21661848134") [("name", some "TV2no")]
      ((getAdUnit (constRemote "21661848134") [("name", some "TV2no")] emptyCaches).2)).1
      = .ok "21661848134" ∧
    (getAdUnit (constRemote "21661848134") [("name", some "TV2no")]
      ((getAdUnit (constRemote "21661848134") [("name", some "TV2no")]
        emptyCaches).2)).2.remoteCalls = 2 := by
  decide

/-- Claim C9: resolving the criteria pairs `{hb_pb: "0.50"}` through
`getCriteria` with mocks "hb_pb" to "K1" and "0.50" (scoped to "K1") to
"V1" yields exactly `[{keyId: "K1", valueIds: ["V1"]}]`, and the
criteria-value store is back-filled under the composite key "K1:0.50"
(the key store under "hb_pb"). -/
theorem getCriteria_hbpb_scenario :
    (getCriteria remoteHb [("hb_pb", "0.50")] emptyCaches).1
      = .ok [{ keyId := "K1", valueIds := ["V1"] }] ∧
    (getCriteria remoteHb [("hb_pb", "0.50")] emptyCaches).2.criteriaValueStore
      = [("K1:0.50", "V1")] ∧
    (getCriteria remoteHb [("hb_pb", "0.50")] emptyCaches).2.criteriaKeyStore
      = [("hb_pb", "K1")] := by
  decide

/-- A successful `lookupCriteriaValues` always returns a singleton list
(the first-match id wrapped by `.then(id => [id])`). -/
theorem lookupCriteriaValues_singleton (remote : Remote) (value keyId : String)
    (s s' : CacheSt) (res : List String)
    (h : lookupCriteriaValues remote value keyId s = (.ok res, s')) :
    res.length = 1 := by
  rw [lookupCriteriaValues_eval] at h
  cases hfind : (s.store .criteriaValue).find (keyId ++ ":" ++ value) with
  | some v =>
    simp only [hfind] at h
    injection h with h1 h2
    injection h1 with h1
    subst h1
    rfl
  | none =>
    simp only [hfind] at h
    cases hE : (extractResults (remote "CustomTargetingService"
        "getCustomTargetingValuesByStatement"
        ("Where customTargetingKeyId = " ++ sglq ++ keyId ++ sglq
          ++ " and name like " ++ sglq ++ value ++ sglq))).bind extractFirstId with
    | error e =>
      simp only [hE] at h
      injection h with h1 h2
      exact Except.noConfusion h1
    | ok i =>
      simp only [hE] at h
      by_cases hpf : s.putFails = true
      · rw [if_pos hpf] at h
        injection h with h1 h2
        exact Except.noConfusion h1
      · rw [if_neg hpf] at h
        injection h with h1 h2
        injection h1 with h1
        subst h1
        rfl

/-- A successful sequential map satisfies a per-element postcondition of
the mapped computation. -/
theorem mapSeqC_post {α β : Type} (f : α → CacheM β) (P : β → Prop)
    (hf : ∀ a s b s', f a s = (.ok b, s') → P b) :
    ∀ (l : List α) (s s' : CacheSt) (res : List β),
      mapSeqC f l s = (.ok res, s') → ∀ b ∈ res, P b := by
  intro l
  induction l with
  | nil =>
    intro s s' res h b hb
    unfold mapSeqC pureC at h
    injection h with h1 h2
    injection h1 with h1
    subst h1
    cases hb
  | cons a rest ih =>
    intro s s' res h b hb
    unfold mapSeqC at h
    cases hfa : f a s with
    | mk ra s₁ =>
      cases ra with
      | error e =>
        rw [bindC_err hfa] at h
        injection h with h1 h2
        exact Except.noConfusion h1
      | ok b₀ =>
        rw [bindC_ok hfa] at h
        cases hrest : mapSeqC f rest s₁ with
        | mk rr s₂ =>
          cases rr with
          | error e =>
            rw [bindC_err hrest] at h
            injection h with h1 h2
            exact Except.noConfusion h1
          | ok bs =>
            rw [bindC_ok hrest] at h
            unfold pureC at h
            injection h with h1 h2
            injection h1 with h1
            subst h1
            cases hb with
            | head => exact hf a s b s₁ hfa
            | tail _ htail => exact ih s₁ s₂ bs hrest b htail

/-- Claim C10: every entry produced by a successful `getCriteria` run
carries a `valueIds` list of length exactly one —
`lookupCriteriaValues` wraps the single first-match identifier in a
singleton list, so a resolved criteria entry never carries several
value ids. -/
theorem getCriteria_valueIds_singleton (remote : Remote)
    (criteria : List (String × String)) (s s' : CacheSt) (res : List CriteriaEntry)
    (h : getCriteria remote criteria s = (.ok res, s')) :
    ∀ entry ∈ res, entry.valueIds.length = 1 := by
  intro entry hentry
  unfold getCriteria at h
  cases h1 : mapSeqC (lookupKeyInPair remote) criteria s with
  | mk r1 s₁ =>
    cases r1 with
    | error e =>
      rw [bindC_err h1] at h
      injection h with hh1 hh2
      exact Except.noConfusion hh1
    | ok keyPairs =>
      rw [bindC_ok h1] at h
      cases h2 : mapSeqC (lookupValueInPair remote) keyPairs s₁ with
      | mk r2 s₂ =>
        cases r2 with
        | error e =>
          rw [bindC_err h2] at h
          injection h with hh1 hh2
          exact Except.noConfusion hh1
        | ok valuePairs =>
          rw [bindC_ok h2] at h
          unfold pureC at h
          injection h with hh1 hh2
          injection hh1 with hh1
          subst hh1
          rcases List.mem_map.mp hentry with ⟨p, hp, hpe⟩
          have hpost : ∀ pr (st : CacheSt) b (st' : CacheSt),
              lookupValueInPair remote pr st = (.ok b, st') → b.2.length = 1 := by
            intro pr st b st' hv
            unfold lookupValueInPair at hv
            cases hlv : lookupCriteriaValues remote pr.2 pr.1 st with
            | mk rv sv =>
              cases rv with
              | error e =>
                rw [bindC_err hlv] at hv
                injection hv with hv1 hv2
                exact Except.noConfusion hv1
              | ok vIds =>
                rw [bindC_ok hlv] at hv
                unfold pureC at hv
                injection hv with hv1 hv2
                injection hv1 with hv1
                subst hv1
                exact lookupCriteriaValues_singleton remote pr.2 pr.1 st sv vIds hlv
          have hlen : p.2.length = 1 :=
            mapSeqC_post (lookupValueInPair remote) (fun b => b.2.length = 1) hpost
              keyPairs s₁ s₂ valuePairs h2 p hp
          rw [← hpe]
          exact hlen

/-- Concrete run of the claim-C10 theorem at the criteria scenario
input. -/
theorem getCriteria_valueIds_singleton_witness :
    ({ keyId := "K1", valueIds := ["V1"] } : CriteriaEntry).valueIds.length = 1 :=
  getCriteria_valueIds_singleton remoteHb [("hb_pb", "0.50")] emptyCaches
    ((getCriteria remoteHb [("hb_pb", "0.50")] emptyCaches).2)
    [{ keyId := "K1", valueIds := ["V1"] }] (by decide)
    { keyId := "K1", valueIds := ["V1"] } (by decide)

theorem chunkGo_nil {α : Type} (n fuel : Nat) : chunkGo n fuel ([] : List α) = [] := by
  cases fuel <;> rfl

theorem chunkGo_flatten {α : Type} (n : Nat) (hn : 0 < n) :
    ∀ (fuel : Nat) (l : List α), l.length ≤ fuel → (chunkGo n fuel l).flatten = l := by
  intro fuel
  induction fuel with
  | zero =>
    intro l hl
    cases l with
    | nil => rfl
    | cons a t => simp at hl
  | succ f ih =>
    intro l hl
    cases l with
    | nil => rfl
    | cons a t =>
      have hdrop : ((a :: t).drop n).length ≤ f := by
        rw [List.length_drop]
        simp only [List.length_cons] at hl ⊢
        omega
      show ((a :: t).take n :: chunkGo n f ((a :: t).drop n)).flatten = a :: t
      rw [List.flatten_cons]
      rw [ih ((a :: t).drop n) hdrop]
      exact List.take_append_drop n (a :: t)

theorem chunkGo_length {α : Type} (n : Nat) (hn : 0 < n) :
    ∀ (fuel : Nat) (l : List α), l.length ≤ fuel →
      (chunkGo n fuel l).length = (l.length + n - 1) / n := by
  intro fuel
  induction fuel with
  | zero =>
    intro l hl
    cases l with
    | nil =>
      show (0 : Nat) = (0 + n - 1) / n
      rw [Nat.zero_add]
      rw [Nat.div_eq_of_lt (by omega)]
    | cons a t => simp at hl
  | succ f ih =>
    intro l hl
    cases l with
    | nil =>
      show (0 : Nat) = (0 + n - 1) / n
      rw [Nat.zero_add]
      rw [Nat.div_eq_of_lt (by omega)]
    | cons a t =>
      have hdrop : ((a :: t).drop n).length ≤ f := by
        rw [List.length_drop]
        simp only [List.length_cons] at hl ⊢
        omega
      show (chunkGo n f ((a :: t).drop n)).length + 1 = ((a :: t).length + n - 1) / n
      rw [ih ((a :: t).drop n) hdrop]
      rw [List.length_drop]
      have hlen : 0 < (a :: t).length := by simp
      rcases Nat.le_total n (a :: t).length with hle | hge
      · have h1 : (a :: t).length - n + n - 1 = (a :: t).length - 1 := by omega
        have h2 : (a :: t).length + n - 1 = ((a :: t).length - 1) + n := by omega
        rw [h1, h2]
        rw [Nat.add_div_right _ hn]
      · have h1 : (a :: t).length - n = 0 := by omega
        rw [h1]
        rw [Nat.zero_add]
        rw [Nat.div_eq_of_lt (by omega)]
        exact (@Nat.div_eq_of_lt_le 1 n ((a :: t).length + n - 1)
          (by simp only [Nat.one_mul]; omega) (by omega)).symm

theorem chunkGo_dropLast {α : Type} (n : Nat) (hn : 0 < n) :
    ∀ (fuel : Nat) (l : List α), l.length ≤ fuel →
      ∀ b ∈ (chunkGo n fuel l).dropLast, b.length = n := by
  intro fuel
  induction fuel with
  | zero =>
    intro l hl b hb
    cases l with
    | nil => cases hb
    | cons a t => simp at hl
  | succ f ih =>
    intro l hl b hb
    cases l with
    | nil => cases hb
    | cons a t =>
      have hdrop : ((a :: t).drop n).length ≤ f := by
        rw [List.length_drop]
        simp only [List.length_cons] at hl ⊢
        omega
      rw [show chunkGo n (f + 1) (a :: t)
          = (a :: t).take n :: chunkGo n f ((a :: t).drop n) from rfl] at hb
      cases hrec : chunkGo n f ((a :: t).drop n) with
      | nil =>
        rw [hrec] at hb
        cases hb
      | cons r rs =>
        rw [hrec] at hb
        rw [List.dropLast_cons₂] at hb
        cases hb with
        | head =>
          have hne : (a :: t).drop n ≠ [] := by
            intro hnil
            rw [hnil, chunkGo_nil] at hrec
            exact List.noConfusion hrec
          have hlen : n < (a :: t).length := by
            have := List.length_pos.mpr hne
            rw [List.length_drop] at this
            omega
          rw [List.length_take]
          omega
        | tail _ htail =>
          have := ih ((a :: t).drop n) hdrop b
          rw [hrec] at this
          exact this htail

set_option maxRecDepth 4000 in
/-- Claim C5: for every item list and positive `maxBatchSize` n, the
lodash `_.chunk` split behind `splitBatches` yields
ceil(len/n) = (len+n-1)/n ordered batches, every batch but possibly the
last has length exactly n, and joining the batches in order reproduces
the input exactly; in particular `splitBatches` (batch size 100) on 250
items yields batch sizes [100, 100, 50]. -/
theorem splitBatches_spec {α : Type} (items : List α) (n : Nat) (hn : 0 < n) :
    (lodashChunk items n).length = (items.length + n - 1) / n ∧
    (∀ b ∈ (lodashChunk items n).dropLast, b.length = n) ∧
    (lodashChunk items n).flatten = items ∧
    (splitBatches (List.range 250)).map List.length = [100, 100, 50] := by
  have hne : n ≠ 0 := Nat.pos_iff_ne_zero.mp hn
  refine ⟨?_, ?_, ?_, ?_⟩
  · rw [lodashChunk, if_neg hne]
    exact chunkGo_length n hn items.length items (Nat.le_refl _)
  · rw [lodashChunk, if_neg hne]
    exact chunkGo_dropLast n hn items.length items (Nat.le_refl _)
  · rw [lodashChunk, if_neg hne]
    exact chunkGo_flatten n hn items.length items (Nat.le_refl _)
  · decide

/-- Concrete run of the claim-C5 theorem: 250 items split with batch
size 100. -/
theorem splitBatches_spec_witness :
    (lodashChunk (List.range 250) 100).length = ((List.range 250).length + 100 - 1) / 100 ∧
    (∀ b ∈ (lodashChunk (List.range 250) 100).dropLast, b.length = 100) ∧
    (lodashChunk (List.range 250) 100).flatten = List.range 250 ∧
    (splitBatches (List.range 250)).map List.length = [100, 100, 50] :=
  splitBatches_spec (List.range 250) 100 (by decide)

/-- Claim C7: a remote response carrying zero results (an empty results
array, or no results property at all) makes the extraction pipeline of
every resolution fail with an error, while a response carrying one or
more results resolves to the id of the FIRST result in server-returned
order — never a later result and never an ambiguity error. -/
theorem extraction_zero_fails_first_wins (resp : Response) :
    ((resp.results = none ∨ resp.results = some []) →
      ∃ e, (extractResults resp).bind extractFirstId = .error e) ∧
    (∀ (r : DfpEntity) (rs : List DfpEntity) (i : String),
      resp.results = some (r :: rs) → r.id = some i → i ≠ "" →
      (extractResults resp).bind extractFirstId = .ok i) := by
  constructor
  · rintro (h | h)
    · exact ⟨resultsErrMsg, by simp [extractResults, h, Except.bind]⟩
    · exact ⟨idErrMsg, by simp [extractResults, extractFirstId, h, Except.bind]⟩
  · intro r rs i hres hid hne
    simp [extractResults, extractFirstId, hres, hid, hne, Except.bind]

/-- Concrete runs of the claim-C7 theorem: an empty results array fails;
two results resolve to the first id "A", not the second "B". -/
theorem extraction_zero_fails_first_wins_witness :
    (∃ e, (extractResults ({ results := some [] } : Response)).bind extractFirstId
      = .error e) ∧
    (extractResults ({ results := some [{ id := some "A" }, { id := some "B" }] }
        : Response)).bind extractFirstId
      = .ok "A" :=
  ⟨(extraction_zero_fails_first_wins { results := some [] }).1 (Or.inr rfl),
   (extraction_zero_fails_first_wins
      { results := some [{ id := some "A" }, { id := some "B" }] }).2
      { id := some "A" } [{ id := some "B" }] "A" rfl rfl (by decide)⟩

theorem makeQuery_foldl (c : Conditions) :
    ∀ (fields : List String) (acc : String),
      fields.foldl (fun cond field =>
        match c.truthy field with
        | some v => cond ++ (likeClause field v ++ " and ")
        | none => cond) acc
      = acc ++ andCat (specFilterClauses c fields) := by
  intro fields
  induction fields with
  | nil =>
    intro acc
    simp [specFilterClauses, andCat]
  | cons f fs ih =>
    intro acc
    rw [List.foldl_cons]
    cases ht : c.truthy f with
    | none =>
      simp only [ht]
      rw [ih]
      simp [specFilterClauses, List.filterMap_cons, ht]
    | some v =>
      simp only [ht]
      rw [ih]
      simp only [specFilterClauses, List.filterMap_cons, ht, Option.map_some']
      rw [String.append_assoc]
      rfl

theorem andCat_eq_joinClauses (cl : String) (cls : List String) :
    andCat (cl :: cls) = joinClauses (cl :: cls) ++ " and " := by
  induction cls generalizing cl with
  | nil => simp [andCat, joinClauses]
  | cons c₂ rest ih =>
    show (cl ++ " and ") ++ andCat (c₂ :: rest) = joinClauses (cl :: c₂ :: rest) ++ " and "
    rw [ih c₂]
    show (cl ++ " and ") ++ (joinClauses (c₂ :: rest) ++ " and ")
      = (cl ++ " and " ++ joinClauses (c₂ :: rest)) ++ " and "
    simp [String.append_assoc]

theorem replaceTrailingAnd_append_and (p : String) :
    replaceTrailingAnd (p ++ " and ") = p := by
  have hdata : (p ++ " and ").data = p.data ++ (" and ").data := String.data_append p _
  have hlen : (p ++ " and ").data.length = p.data.length + 5 := by
    rw [hdata, List.length_append]
    rfl
  have hsub : (p ++ " and ").data.length - 5 = p.data.length := by omega
  unfold replaceTrailingAnd
  rw [if_pos]
  · apply String.ext
    show ((p ++ " and ").data.take ((p ++ " and ").data.length - 5)) = p.data
    rw [hsub, hdata]
    exact List.take_left p.data _
  · constructor
    · omega
    · rw [hsub, hdata]
      exact List.drop_left p.data _

/-- Claim C6: `_makeQuery` produces "Where " followed by the
AND-combination of one `field like 'value'` clause per allowed field
whose condition value is present and non-empty, in allowed-field order
with the trailing "and" stripped; when no allowed field has a value the
result is the bare "Where " query (an empty filter, not an error). -/
theorem makeQuery_spec (c : Conditions) (fields : List String) :
    makeQuery c fields = "Where " ++ joinClauses (specFilterClauses c fields) ∧
    (specFilterClauses c fields = [] → makeQuery c fields = "Where ") := by
  constructor
  · unfold makeQuery
    rw [makeQuery_foldl c fields "Where "]
    cases hcl : specFilterClauses c fields with
    | nil =>
      show replaceTrailingAnd ("Where " ++ "") = "Where " ++ ""
      rw [String.append_empty]
      decide
    | cons cl cls =>
      rw [andCat_eq_joinClauses]
      rw [← String.append_assoc]
      exact replaceTrailingAnd_append_and _
  · intro hcl
    unfold makeQuery
    rw [makeQuery_foldl c fields "Where ", hcl]
    show replaceTrailingAnd ("Where " ++ "") = "Where "
    rw [String.append_empty]
    decide

/-- Concrete runs of the claim-C6 theorem: one truthy ad-unit condition
yields its single clause; an empty condition set against the order
fields yields the bare "Where " match-all query. -/
theorem makeQuery_spec_witness :
    makeQuery [("name", some "TV2no")] AD_UNIT_FIELDS
      = "Where " ++ joinClauses (specFilterClauses [("name", some "TV2no")] AD_UNIT_FIELDS) ∧
    makeQuery ([] : Conditions) ORDER_FIELDS = "Where " :=
  ⟨(makeQuery_spec [("name", some "TV2no")] AD_UNIT_FIELDS).1,
   (makeQuery_spec [] ORDER_FIELDS).2 (by decide)⟩

/-! Evaluation lemmas for the heap-level promise combinators. -/

theorem bindJ_ok {α β : Type} {m : JsM α} {f : α → JsM β} {s s₁ : St} {a : α}
    (h : m s = (.ok a, s₁)) : bindJ m f s = f a s₁ := by
  unfold bindJ
  rw [h]

theorem bindJ_err {α β : Type} {m : JsM α} {f : α → JsM β} {s s₁ : St} {e : String}
    (h : m s = (.error e, s₁)) : bindJ m f s = (.error e, s₁) := by
  unfold bindJ
  rw [h]

theorem liftC_eval {α : Type} (m : CacheM α) (s : St) :
    liftC m s = ((m s.caches).1, { s with caches := (m s.caches).2 }) := by
  unfold liftC
  cases m s.caches
  rfl

theorem cloneDeep_some {s : St} {r : Ref} {li : LineItem} (h : s.heap[r]? = some li) :
    cloneDeep r s = (.ok s.heap.length, { s with heap := s.heap ++ [li] }) := by
  unfold cloneDeep
  rw [h]

theorem cloneDeep_none {s : St} {r : Ref} (h : s.heap[r]? = none) :
    cloneDeep r s = (.error typeErrMsg, s) := by
  unfold cloneDeep
  rw [h]

theorem readObj_some {s : St} {r : Ref} {li : LineItem} (h : s.heap[r]? = some li) :
    readObj r s = (.ok li, s) := by
  unfold readObj
  rw [h]

theorem readObj_none {s : St} {r : Ref} (h : s.heap[r]? = none) :
    readObj r s = (.error typeErrMsg, s) := by
  unfold readObj
  rw [h]

theorem mutateObj_some {s : St} {r : Ref} {li : LineItem} (f : LineItem → LineItem)
    (h : s.heap[r]? = some li) :
    mutateObj r f s = (.ok (), { s with heap := s.heap.set r (f li) }) := by
  unfold mutateObj
  rw [h]

/-- `replaceStartDate` on a live reference: the clone is allocated at
the end of the heap and only the clone is written. -/
theorem replaceStartDate_eval {s : St} {r : Ref} {li : LineItem} (h : s.heap[r]? = some li) :
    replaceStartDate r s = (.ok s.heap.length,
      { s with heap := (s.heap ++ [li]).set s.heap.length (applyStartDate li) }) := by
  unfold replaceStartDate
  rw [bindJ_ok (cloneDeep_some h)]
  rw [bindJ_ok (mutateObj_some applyStartDate (List.getElem?_concat_length s.heap li))]
  rfl

/-- Heap discipline of `replaceStartDate`: the heap only grows, every
pre-existing object is untouched, and a returned reference is fresh. -/
theorem heapOK_replaceStartDate (r : Ref) (s : St) :
    s.heap.length ≤ ((replaceStartDate r s).2).heap.length ∧
    (∀ j, j < s.heap.length → ((replaceStartDate r s).2).heap[j]? = s.heap[j]?) ∧
    (∀ r', (replaceStartDate r s).1 = .ok r' → s.heap.length ≤ r') := by
  cases hr : s.heap[r]? with
  | none =>
    have hres : replaceStartDate r s = (.error typeErrMsg, s) := by
      unfold replaceStartDate
      rw [bindJ_err (cloneDeep_none hr)]
    rw [hres]
    exact ⟨Nat.le_refl _, fun j hj => rfl, fun r' hr' => Except.noConfusion hr'⟩
  | some li =>
    rw [replaceStartDate_eval hr]
    refine ⟨?_, ?_, ?_⟩
    · simp
    · intro j hj
      show ((s.heap ++ [li]).set s.heap.length (applyStartDate li))[j]? = s.heap[j]?
      rw [List.getElem?_set_ne (by omega)]
      exact List.getElem?_append_left hj
    · intro r' hr'
      injection hr' with h₂
      exact Nat.le_of_eq h₂

/-- Heap discipline of `replaceOrderName`: only the fresh clone is ever
written, whatever the resolution outcome. -/
theorem heapOK_replaceOrderName (remote : Remote) (r : Ref) (s : St) :
    s.heap.length ≤ ((replaceOrderName remote r s).2).heap.length ∧
    (∀ j, j < s.heap.length → ((replaceOrderName remote r s).2).heap[j]? = s.heap[j]?) ∧
    (∀ r', (replaceOrderName remote r s).1 = .ok r' → s.heap.length ≤ r') := by
  cases hr : s.heap[r]? with
  | none =>
    have hres : replaceOrderName remote r s = (.error typeErrMsg, s) := by
      unfold replaceOrderName
      rw [bindJ_err (cloneDeep_none hr)]
    rw [hres]
    exact ⟨Nat.le_refl _, fun j hj => rfl, fun r' hr' => Except.noConfusion hr'⟩
  | some li =>
    have h2 : ({ s with heap := s.heap ++ [li] } : St).heap[s.heap.length]? = some li :=
      List.getElem?_concat_length s.heap li
    have hlift : ∀ res c',
        getOrder remote [("name", li.orderName)]
          ({ s with heap := s.heap ++ [li] } : St).caches = (res, c') →
        liftC (getOrder remote [("name", li.orderName)])
          ({ s with heap := s.heap ++ [li] } : St)
          = (res, { caches := c', heap := s.heap ++ [li] }) := by
      intro res c' hg
      rw [liftC_eval, hg]
    cases hg : getOrder remote [("name", li.orderName)]
        ({ s with heap := s.heap ++ [li] } : St).caches with
    | mk res c' =>
      cases res with
      | error e =>
        have hres : replaceOrderName remote r s
            = (.error e, { caches := c', heap := s.heap ++ [li] }) := by
          unfold replaceOrderName
          rw [bindJ_ok (cloneDeep_some hr)]
          rw [bindJ_ok (readObj_some h2)]
          rw [bindJ_err (hlift _ _ hg)]
        rw [hres]
        refine ⟨by simp, ?_, fun r' hr' => Except.noConfusion hr'⟩
        intro j hj
        exact List.getElem?_append_left hj
      | ok oid =>
        have h3 : ({ caches := c', heap := s.heap ++ [li] } : St).heap[s.heap.length]?
            = some li := List.getElem?_concat_length s.heap li
        have hres : replaceOrderName remote r s
            = (.ok s.heap.length,
              { caches := c',
                heap := (s.heap ++ [li]).set s.heap.length
                  { li with orderId := some oid, orderName := none } }) := by
          unfold replaceOrderName
          rw [bindJ_ok (cloneDeep_some hr)]
          rw [bindJ_ok (readObj_some h2)]
          rw [bindJ_ok (hlift _ _ hg)]
          rw [bindJ_ok (mutateObj_some _ h3)]
          rfl
        rw [hres]
        refine ⟨by simp, ?_, ?_⟩
        · intro j hj
          show ((s.heap ++ [li]).set s.heap.length _)[j]? = s.heap[j]?
          rw [List.getElem?_set_ne (by omega)]
          exact List.getElem?_append_left hj
        · intro r' hr'
          injection hr' with h₂
          exact Nat.le_of_eq h₂

/-- `setTargetedAdUnits` writes only at its target reference and never
changes the heap's length. -/
theorem setTargetedAdUnits_heap (cl : Ref) (aid : String) (s : St) :
    ((setTargetedAdUnits cl aid s).2).heap.length = s.heap.length ∧
    ∀ j, j ≠ cl → ((setTargetedAdUnits cl aid s).2).heap[j]? = s.heap[j]? := by
  unfold setTargetedAdUnits
  cases hr : s.heap[cl]? with
  | none =>
    rw [bindJ_err (readObj_none hr)]
    exact ⟨rfl, fun j _ => rfl⟩
  | some li =>
    rw [bindJ_ok (readObj_some hr)]
    cases li.targeting with
    | none => exact ⟨rfl, fun j _ => rfl⟩
    | some tg =>
      simp only []
      cases tg.inventoryTargeting with
      | none => exact ⟨rfl, fun j _ => rfl⟩
      | some it =>
        simp only []
        rw [mutateObj_some _ hr]
        constructor
        · simp
        · intro j hj
          show (s.heap.set cl _)[j]? = s.heap[j]?
          rw [List.getElem?_set_ne (Ne.symm hj)]

/-- `pushCriteriaNode` writes only at its target reference and never
changes the heap's length. -/
theorem pushCriteriaNode_heap (cl : Ref) (node : CustomCriteriaNode) (s : St) :
    ((pushCriteriaNode cl node s).2).heap.length = s.heap.length ∧
    ∀ j, j ≠ cl → ((pushCriteriaNode cl node s).2).heap[j]? = s.heap[j]? := by
  unfold pushCriteriaNode
  cases hr : s.heap[cl]? with
  | none =>
    rw [bindJ_err (readObj_none hr)]
    exact ⟨rfl, fun j _ => rfl⟩
  | some li =>
    rw [bindJ_ok (readObj_some hr)]
    cases li.targeting with
    | none => exact ⟨rfl, fun j _ => rfl⟩
    | some tg =>
      simp only []
      cases tg.customTargeting with
      | none => exact ⟨rfl, fun j _ => rfl⟩
      | some ct =>
        simp only []
        cases ct.children with
        | nil => exact ⟨rfl, fun j _ => rfl⟩
        | cons g gs =>
          simp only []
          rw [mutateObj_some _ hr]
          constructor
          · simp
          · intro j hj
            show (s.heap.set cl _)[j]? = s.heap[j]?
            rw [List.getElem?_set_ne (Ne.symm hj)]

/-- `forEachPush` writes only at its target reference and never changes
the heap's length. -/
theorem forEachPush_heap (cl : Ref) (l : List CriteriaEntry) : ∀ (s : St),
    ((forEachPush cl l s).2).heap.length = s.heap.length ∧
    ∀ j, j ≠ cl → ((forEachPush cl l s).2).heap[j]? = s.heap[j]? := by
  induction l with
  | nil => exact fun s => ⟨rfl, fun j _ => rfl⟩
  | cons entry rest ih =>
    intro s
    show ((bindJ (pushCriteriaNode cl (nodeOfEntry entry)) (fun _ => forEachPush cl rest)
        s).2).heap.length = s.heap.length ∧
      ∀ j, j ≠ cl →
        ((bindJ (pushCriteriaNode cl (nodeOfEntry entry)) (fun _ => forEachPush cl rest)
          s).2).heap[j]? = s.heap[j]?
    cases hp : pushCriteriaNode cl (nodeOfEntry entry) s with
    | mk resp sp =>
      have hpush := pushCriteriaNode_heap cl (nodeOfEntry entry) s
      rw [hp] at hpush
      cases resp with
      | error e =>
        rw [bindJ_err hp]
        exact hpush
      | ok u =>
        rw [bindJ_ok hp]
        obtain ⟨ih1, ih2⟩ := ih sp
        refine ⟨ih1.trans hpush.1, ?_⟩
        intro j hj
        rw [ih2 j hj]
        exact hpush.2 j hj

/-- Heap discipline of `replaceAdUnitName`. -/
theorem heapOK_replaceAdUnitName (remote : Remote) (r : Ref) (s : St) :
    s.heap.length ≤ ((replaceAdUnitName remote r s).2).heap.length ∧
    (∀ j, j < s.heap.length → ((replaceAdUnitName remote r s).2).heap[j]? = s.heap[j]?) ∧
    (∀ r', (replaceAdUnitName remote r s).1 = .ok r' → s.heap.length ≤ r') := by
  cases hr : s.heap[r]? with
  | none =>
    have hres : replaceAdUnitName remote r s = (.error typeErrMsg, s) := by
      unfold replaceAdUnitName
      rw [bindJ_err (cloneDeep_none hr)]
    rw [hres]
    exact ⟨Nat.le_refl _, fun j hj => rfl, fun r' hr' => Except.noConfusion hr'⟩
  | some li =>
    have h2 : ({ s with heap := s.heap ++ [li] } : St).heap[s.heap.length]? = some li :=
      List.getElem?_concat_length s.heap li
    have hlift : ∀ res c',
        getAdUnit remote [("name", li.adUnitName)]
          ({ s with heap := s.heap ++ [li] } : St).caches = (res, c') →
        liftC (getAdUnit remote [("name", li.adUnitName)])
          ({ s with heap := s.heap ++ [li] } : St)
          = (res, { caches := c', heap := s.heap ++ [li] }) := by
      intro res c' hg
      rw [liftC_eval, hg]
    cases hg : getAdUnit remote [("name", li.adUnitName)]
        ({ s with heap := s.heap ++ [li] } : St).caches with
    | mk res c' =>
      cases res with
      | error e =>
        have hres : replaceAdUnitName remote r s
            = (.error e, { caches := c', heap := s.heap ++ [li] }) := by
          unfold replaceAdUnitName
          rw [bindJ_ok (cloneDeep_some hr)]
          rw [bindJ_ok (readObj_some h2)]
          rw [bindJ_err (hlift _ _ hg)]
        rw [hres]
        refine ⟨by simp, ?_, fun r' hr' => Except.noConfusion hr'⟩
        intro j hj
        exact List.getElem?_append_left hj
      | ok aid =>
        cases hset : setTargetedAdUnits s.heap.length aid
            ({ caches := c', heap := s.heap ++ [li] } : St) with
        | mk resS s₃ =>
          have hsprops := setTargetedAdUnits_heap s.heap.length aid
            ({ caches := c', heap := s.heap ++ [li] } : St)
          rw [hset] at hsprops
          have hlen₃ : s₃.heap.length = s.heap.length + 1 := by
            have := hsprops.1
            simpa using this
          cases resS with
          | error e =>
            have hres : replaceAdUnitName remote r s = (.error e, s₃) := by
              unfold replaceAdUnitName
              rw [bindJ_ok (cloneDeep_some hr)]
              rw [bindJ_ok (readObj_some h2)]
              rw [bindJ_ok (hlift _ _ hg)]
              rw [bindJ_err hset]
            rw [hres]
            refine ⟨by rw [hlen₃]; exact Nat.le_succ _, ?_,
              fun r' hr' => Except.noConfusion hr'⟩
            intro j hj
            rw [hsprops.2 j (by show j ≠ s.heap.length; omega)]
            exact List.getElem?_append_left hj
          | ok u =>
            have hcl : s.heap.length < s₃.heap.length := by omega
            obtain ⟨x, hx⟩ : ∃ x, s₃.heap[s.heap.length]? = some x := by
              rw [List.getElem?_eq_getElem hcl]
              exact ⟨_, rfl⟩
            have hres : replaceAdUnitName remote r s
                = (.ok s.heap.length,
                  { s₃ with
                    heap := s₃.heap.set s.heap.length { x with adUnitName := none } }) := by
              unfold replaceAdUnitName
              rw [bindJ_ok (cloneDeep_some hr)]
              rw [bindJ_ok (readObj_some h2)]
              rw [bindJ_ok (hlift _ _ hg)]
              rw [bindJ_ok hset]
              rw [bindJ_ok (mutateObj_some _ hx)]
              rfl
            rw [hres]
            refine ⟨by simp; omega, ?_, ?_⟩
            · intro j hj
              show (s₃.heap.set s.heap.length _)[j]? = s.heap[j]?
              rw [List.getElem?_set_ne (by show s.heap.length ≠ j; omega)]
              rw [hsprops.2 j (by show j ≠ s.heap.length; omega)]
              exact List.getElem?_append_left hj
            · intro r' hr'
              injection hr' with h₂
              exact Nat.le_of_eq h₂

/-- Heap discipline of `addCriteria`. -/
theorem heapOK_addCriteria (remote : Remote) (r : Ref) (s : St) :
    s.heap.length ≤ ((addCriteria remote r s).2).heap.length ∧
    (∀ j, j < s.heap.length → ((addCriteria remote r s).2).heap[j]? = s.heap[j]?) ∧
    (∀ r', (addCriteria remote r s).1 = .ok r' → s.heap.length ≤ r') := by
  cases hr : s.heap[r]? with
  | none =>
    have hres : addCriteria remote r s = (.error typeErrMsg, s) := by
      unfold addCriteria
      rw [bindJ_err (cloneDeep_none hr)]
    rw [hres]
    exact ⟨Nat.le_refl _, fun j hj => rfl, fun r' hr' => Except.noConfusion hr'⟩
  | some li =>
    have h2 : ({ s with heap := s.heap ++ [li] } : St).heap[s.heap.length]? = some li :=
      List.getElem?_concat_length s.heap li
    have hlift : ∀ res c',
        getCriteria remote (li.customCriteriaKVPairs.getD [])
          ({ s with heap := s.heap ++ [li] } : St).caches = (res, c') →
        liftC (getCriteria remote (li.customCriteriaKVPairs.getD []))
          ({ s with heap := s.heap ++ [li] } : St)
          = (res, { caches := c', heap := s.heap ++ [li] }) := by
      intro res c' hg
      rw [liftC_eval, hg]
    cases hg : getCriteria remote (li.customCriteriaKVPairs.getD [])
        ({ s with heap := s.heap ++ [li] } : St).caches with
    | mk res c' =>
      cases res with
      | error e =>
        have hres : addCriteria remote r s
            = (.error e, { caches := c', heap := s.heap ++ [li] }) := by
          unfold addCriteria
          rw [bindJ_ok (cloneDeep_some hr)]
          rw [bindJ_ok (readObj_some h2)]
          rw [bindJ_err (hlift _ _ hg)]
        rw [hres]
        refine ⟨by simp, ?_, fun r' hr' => Except.noConfusion hr'⟩
        intro j hj
        exact List.getElem?_append_left hj
      | ok criteria =>
        cases hf : forEachPush s.heap.length criteria
            ({ caches := c', heap := s.heap ++ [li] } : St) with
        | mk resF s₃ =>
          have hfprops := forEachPush_heap s.heap.length criteria
            ({ caches := c', heap := s.heap ++ [li] } : St)
          rw [hf] at hfprops
          have hlen₃ : s₃.heap.length = s.heap.length + 1 := by
            have := hfprops.1
            simpa using this
          cases resF with
          | error e =>
            have hres : addCriteria remote r s = (.error e, s₃) := by
              unfold addCriteria
              rw [bindJ_ok (cloneDeep_some hr)]
              rw [bindJ_ok (readObj_some h2)]
              rw [bindJ_ok (hlift _ _ hg)]
              rw [bindJ_err hf]
            rw [hres]
            refine ⟨by rw [hlen₃]; exact Nat.le_succ _, ?_,
              fun r' hr' => Except.noConfusion hr'⟩
            intro j hj
            rw [hfprops.2 j (by show j ≠ s.heap.length; omega)]
            exact List.getElem?_append_left hj
          | ok u =>
            have hcl : s.heap.length < s₃.heap.length := by omega
            obtain ⟨x, hx⟩ : ∃ x, s₃.heap[s.heap.length]? = some x := by
              rw [List.getElem?_eq_getElem hcl]
              exact ⟨_, rfl⟩
            have hres : addCriteria remote r s
                = (.ok s.heap.length,
                  { s₃ with
                    heap := s₃.heap.set s.heap.length
                      { x with customCriteriaKVPairs := none } }) := by
              unfold addCriteria
              rw [bindJ_ok (cloneDeep_some hr)]
              rw [bindJ_ok (readObj_some h2)]
              rw [bindJ_ok (hlift _ _ hg)]
              rw [bindJ_ok hf]
              rw [bindJ_ok (mutateObj_some _ hx)]
              rfl
            rw [hres]
            refine ⟨by simp; omega, ?_, ?_⟩
            · intro j hj
              show (s₃.heap.set s.heap.length _)[j]? = s.heap[j]?
              rw [List.getElem?_set_ne (by show s.heap.length ≠ j; omega)]
              rw [hfprops.2 j (by show j ≠ s.heap.length; omega)]
              exact List.getElem?_append_left hj
            · intro r' hr'
              injection hr' with h₂
              exact Nat.le_of_eq h₂

/-- Heap discipline composes through promise chaining. -/
theorem heapOK_bindJ (f : JsM Ref) (g : Ref → JsM Ref) (s : St)
    (hf1 : s.heap.length ≤ ((f s).2).heap.length)
    (hf2 : ∀ j, j < s.heap.length → ((f s).2).heap[j]? = s.heap[j]?)
    (hf3 : ∀ r', (f s).1 = .ok r' → s.heap.length ≤ r')
    (hg : ∀ (r₁ : Ref) (s₁ : St),
      s₁.heap.length ≤ ((g r₁ s₁).2).heap.length ∧
      (∀ j, j < s₁.heap.length → ((g r₁ s₁).2).heap[j]? = s₁.heap[j]?) ∧
      (∀ r', (g r₁ s₁).1 = .ok r' → s₁.heap.length ≤ r')) :
    s.heap.length ≤ ((bindJ f g s).2).heap.length ∧
    (∀ j, j < s.heap.length → ((bindJ f g s).2).heap[j]? = s.heap[j]?) ∧
    (∀ r', (bindJ f g s).1 = .ok r' → s.heap.length ≤ r') := by
  cases hres : f s with
  | mk res s₁ =>
    rw [hres] at hf1 hf2
    cases res with
    | error e =>
      rw [bindJ_err hres]
      exact ⟨hf1, hf2, fun r' h' => Except.noConfusion h'⟩
    | ok r₁ =>
      rw [bindJ_ok hres]
      obtain ⟨hg1, hg2, hg3⟩ := hg r₁ s₁
      refine ⟨Nat.le_trans hf1 hg1, ?_, ?_⟩
      · intro j hj
        rw [hg2 j (Nat.lt_of_lt_of_le hj hf1)]
        exact hf2 j hj
      · intro r' h'
        exact Nat.le_trans hf1 (hg3 r' h')

/-- Heap discipline of the whole `prepareLineItem` pipeline. -/
theorem heapOK_prepareLineItem (remote : Remote) (r : Ref) (s : St) :
    s.heap.length ≤ ((prepareLineItem remote r s).2).heap.length ∧
    (∀ j, j < s.heap.length → ((prepareLineItem remote r s).2).heap[j]? = s.heap[j]?) ∧
    (∀ r', (prepareLineItem remote r s).1 = .ok r' → s.heap.length ≤ r') := by
  unfold prepareLineItem
  refine heapOK_bindJ _ _ s (heapOK_replaceStartDate r s).1
    (heapOK_replaceStartDate r s).2.1 (heapOK_replaceStartDate r s).2.2 ?_
  intro r₁ s₁
  refine heapOK_bindJ _ _ s₁ (heapOK_replaceOrderName remote r₁ s₁).1
    (heapOK_replaceOrderName remote r₁ s₁).2.1 (heapOK_replaceOrderName remote r₁ s₁).2.2 ?_
  intro r₂ s₂
  refine heapOK_bindJ _ _ s₂ (heapOK_replaceAdUnitName remote r₂ s₂).1
    (heapOK_replaceAdUnitName remote r₂ s₂).2.1
    (heapOK_replaceAdUnitName remote r₂ s₂).2.2 ?_
  intro r₃ s₃
  exact heapOK_addCriteria remote r₃ s₃

/-- Claim C4: `prepareLineItem` and each individual step
(`replaceStartDate`, `replaceOrderName`, `replaceAdUnitName`,
`addCriteria`) leave the caller's original object exactly as it was —
on success and on every failure path — and any reference they return is
a fresh clone, never an alias of the input. -/
theorem prepare_steps_never_mutate_caller (remote : Remote) (s : St) (r : Ref)
    (li : LineItem) (h : s.heap[r]? = some li) :
    ((replaceStartDate r s).2.heap[r]? = some li ∧
      (∀ r', (replaceStartDate r s).1 = .ok r' → r' ≠ r)) ∧
    ((replaceOrderName remote r s).2.heap[r]? = some li ∧
      (∀ r', (replaceOrderName remote r s).1 = .ok r' → r' ≠ r)) ∧
    ((replaceAdUnitName remote r s).2.heap[r]? = some li ∧
      (∀ r', (replaceAdUnitName remote r s).1 = .ok r' → r' ≠ r)) ∧
    ((addCriteria remote r s).2.heap[r]? = some li ∧
      (∀ r', (addCriteria remote r s).1 = .ok r' → r' ≠ r)) ∧
    ((prepareLineItem remote r s).2.heap[r]? = some li ∧
      (∀ r', (prepareLineItem remote r s).1 = .ok r' → r' ≠ r)) := by
  obtain ⟨hr, -⟩ := List.getElem?_eq_some.mp h
  have mk : ∀ f : JsM Ref,
      (s.heap.length ≤ ((f s).2).heap.length ∧
        (∀ j, j < s.heap.length → ((f s).2).heap[j]? = s.heap[j]?) ∧
        (∀ r', (f s).1 = .ok r' → s.heap.length ≤ r')) →
      ((f s).2.heap[r]? = some li ∧ (∀ r', (f s).1 = .ok r' → r' ≠ r)) := by
    intro f hf
    obtain ⟨h1, h2, h3⟩ := hf
    constructor
    · rw [h2 r hr]
      exact h
    · intro r' h'
      exact (Nat.lt_of_lt_of_le hr (h3 r' h')).ne'
  exact ⟨mk (replaceStartDate r) (heapOK_replaceStartDate r s),
    mk (replaceOrderName remote r) (heapOK_replaceOrderName remote r s),
    mk (replaceAdUnitName remote r) (heapOK_replaceAdUnitName remote r s),
    mk (addCriteria remote r) (heapOK_addCriteria remote r s),
    mk (prepareLineItem remote r) (heapOK_prepareLineItem remote r s)⟩

/-- Concrete run of the claim-C4 theorem: the sample line item survives
`replaceStartDate` and the whole `prepareLineItem` pipeline unchanged. -/
theorem prepare_steps_never_mutate_caller_witness :
    (replaceStartDate 0 sampleSt).2.heap[0]? = some sampleLineItem ∧
    (prepareLineItem (constRemote "X1") 0 sampleSt).2.heap[0]? = some sampleLineItem :=
  have t := prepare_steps_never_mutate_caller (constRemote "X1") sampleSt 0 sampleLineItem
    rfl
  ⟨t.1.1, (t.2.2.2.2).1⟩

/-- The extraction pipeline only ever fails with one of its two fixed
messages. -/
theorem extractChain_err (resp : Response) (e : String)
    (h : (extractResults resp).bind extractFirstId = .error e) :
    e = resultsErrMsg ∨ e = idErrMsg := by
  unfold extractResults at h
  cases hres : resp.results with
  | none =>
    rw [hres] at h
    simp only [Except.bind] at h
    injection h with h
    exact Or.inl h.symm
  | some rs =>
    rw [hres] at h
    simp only [Except.bind] at h
    cases rs with
    | nil =>
      simp only [extractFirstId] at h
      injection h with h
      exact Or.inr h.symm
    | cons r rest =>
      simp only [extractFirstId] at h
      cases hid : r.id with
      | none =>
        simp only [hid] at h
        injection h with h
        exact Or.inr h.symm
      | some i =>
        simp only [hid] at h
        by_cases hi : i = ""
        · rw [if_pos hi] at h
          injection h with h
          exact Or.inr h.symm
        · rw [if_neg hi] at h
          exact Except.noConfusion h

/-- `getOrder` on conditions whose name is `undefined` always rejects:
either the (match-all) remote extraction fails, or the back-fill write
rejects the undefined key; in every case exactly one remote call has
been made. -/
theorem getOrder_noName (remote : Remote) (cs : CacheSt) :
    ∃ e, getOrder remote [("name", none)] cs
      = (.error e, { cs with remoteCalls := cs.remoteCalls + 1 }) ∧
      (e = resultsErrMsg ∨ e = idErrMsg ∨ e = levelKeyErrMsg) := by
  rw [getOrder_eval]
  simp only [condGet_name]
  cases hE : (extractResults (remote "OrderService" "getOrdersByStatement"
      (makeQuery [("name", none)] ORDER_FIELDS))).bind extractFirstId with
  | error e =>
    refine ⟨e, rfl, ?_⟩
    rcases extractChain_err _ _ hE with h | h
    · exact Or.inl h
    · exact Or.inr (Or.inl h)
  | ok i => exact ⟨levelKeyErrMsg, rfl, Or.inr (Or.inr rfl)⟩

/-- Evaluating `prepareLineItem` on a line item whose `orderName` is
absent: once the inner `getOrder` on the `{name: undefined}` conditions
rejects with `e` after its one counted remote call, the whole pipeline
rejects with the same `e`. -/
theorem prepare_noOrder_run (remote : Remote) (s : St) (r : Ref)
    (li : LineItem) (e : String) (h : s.heap[r]? = some li)
    (hmiss : li.orderName = none)
    (hgo : getOrder remote [("name", none)] s.caches
      = (.error e, { s.caches with remoteCalls := s.caches.remoteCalls + 1 })) :
    prepareLineItem remote r s
      = (.error e,
        { caches := { s.caches with remoteCalls := s.caches.remoteCalls + 1 },
          heap := ((s.heap ++ [li]).set s.heap.length (applyStartDate li))
            ++ [applyStartDate li] }) := by
  have hord : (applyStartDate li).orderName = none := hmiss
  have h1 : replaceStartDate r s = (.ok s.heap.length,
      { s with heap := (s.heap ++ [li]).set s.heap.length (applyStartDate li) }) :=
    replaceStartDate_eval h
  have h2 : (({ s with heap := (s.heap ++ [li]).set s.heap.length (applyStartDate li) }
      : St)).heap[s.heap.length]? = some (applyStartDate li) := by
    show ((s.heap ++ [li]).set s.heap.length (applyStartDate li))[s.heap.length]? = _
    rw [List.getElem?_set_self (by simp)]
  have hro : ∀ s₂ : St, s₂.heap[s.heap.length]? = some (applyStartDate li) →
      s₂.caches = s.caches →
      replaceOrderName remote s.heap.length s₂
        = (.error e,
          { caches := { s.caches with remoteCalls := s.caches.remoteCalls + 1 },
            heap := s₂.heap ++ [applyStartDate li] }) := by
    intro s₂ hs₂ hc
    unfold replaceOrderName
    rw [bindJ_ok (cloneDeep_some hs₂)]
    rw [bindJ_ok (readObj_some (List.getElem?_concat_length s₂.heap (applyStartDate li)))]
    rw [hord]
    have hlift : liftC (getOrder remote [("name", none)])
        ({ s₂ with heap := s₂.heap ++ [applyStartDate li] } : St)
        = (.error e,
          { caches := { s.caches with remoteCalls := s.caches.remoteCalls + 1 },
            heap := s₂.heap ++ [applyStartDate li] }) := by
      rw [liftC_eval]
      show (_, _) = _
      rw [hc, hgo]
    rw [bindJ_err hlift]
  unfold prepareLineItem
  rw [bindJ_ok h1]
  rw [bindJ_err (hro _ h2 rfl)]

/-- Counterexample to claim C8 as stated: a line item whose `orderName`
is absent does make `prepareLineItem` fail — but with the cache layer's
undefined-key error, which does not identify the missing field
("orderName" appears nowhere in it). -/
theorem missing_orderName_error_cex :
    (prepareLineItem (constRemote "O1") 0 noOrderSt).1 = .error levelKeyErrMsg ∧
    errMentions levelKeyErrMsg "orderName" = false := by
  constructor
  · have hE : (extractResults ((constRemote "O1") "OrderService" "getOrdersByStatement"
        (makeQuery [("name", none)] ORDER_FIELDS))).bind extractFirstId = .ok "O1" := by
      decide
    have hgo : getOrder (constRemote "O1") [("name", none)] noOrderSt.caches
        = (.error levelKeyErrMsg,
          { noOrderSt.caches with remoteCalls := noOrderSt.caches.remoteCalls + 1 }) := by
      rw [getOrder_eval]
      simp only [condGet_name]
      rw [hE]
    rw [prepare_noOrder_run (constRemote "O1") noOrderSt 0 noOrderLineItem
      levelKeyErrMsg rfl rfl hgo]
  · decide

/-- Claim C8 (amended): a line item missing its `orderName` makes
`prepareLineItem` fail — no submission object is produced — but the
error is one of the extraction messages or the cache layer's
undefined-key error, none of which identifies the missing field; and a
(match-all) remote query has already been issued by then (exactly one
remote call). -/
theorem missing_orderName_prepare_fails (remote : Remote) (s : St) (r : Ref)
    (li : LineItem) (h : s.heap[r]? = some li) (hmiss : li.orderName = none) :
    (∃ e, (prepareLineItem remote r s).1 = .error e ∧
      (e = resultsErrMsg ∨ e = idErrMsg ∨ e = levelKeyErrMsg) ∧
      errMentions e "orderName" = false) ∧
    ((prepareLineItem remote r s).2).caches.remoteCalls = s.caches.remoteCalls + 1 := by
  obtain ⟨e, hgo, he⟩ := getOrder_noName remote s.caches
  rw [prepare_noOrder_run remote s r li e h hmiss hgo]
  refine ⟨⟨e, rfl, he, ?_⟩, rfl⟩
  rcases he with h' | h' | h' <;> rw [h'] <;> decide

/-- Concrete run of the amended claim-C8 theorem: preparing the
order-less sample line item issues exactly one (match-all) remote call
before failing. -/
theorem missing_orderName_prepare_fails_witness :
    ((prepareLineItem (constRemote "O1") 0 noOrderSt).2).caches.remoteCalls
      = noOrderSt.caches.remoteCalls + 1 :=
  (missing_orderName_prepare_fails (constRemote "O1") noOrderSt 0 noOrderLineItem
    rfl rfl).2
